import Mathlib

/-
  Shallow embedding of src/iso8601.py (a Python 2 ISO 8601 parser).

  The module compiles five anchored regular expressions into a dict
  `PATTERNS`, tries them in the dict's iteration order, extracts named
  capture groups, rebuilds a value/format string pair for
  `datetime.datetime.strptime`, resolves the timezone fragment through the
  `TimeZone` class (falling back to the process-local timezone), and adds
  the sub-second token as a `Decimal`-scaled microsecond delta.

  Strings are embedded as `List Char`.  The regular expressions are
  embedded as backtracking matchers that enumerate candidate parses in the
  exact preference order of the Python `re` engine (ordered alternation,
  greedy optional groups, greedy `\d+`), anchored at both ends by keeping
  only candidates with an empty remainder.  `strptime` is embedded with the
  per-directive token grammars of CPython 2.7's `_strptime` module and its
  date-resolution algorithm (including the `%W`/`%w` week computation and
  the `date.fromordinal` conversion).  `Decimal` multiplication is embedded
  with the default context: 28 significant digits, round-half-even.
-/

namespace Iso8601

/-! ## Characters and digit strings -/

def digitChar (n : Nat) : Char := Char.ofNat (48 + n)

def digitsToNat (ds : List Char) : Nat :=
  ds.foldl (fun a c => a * 10 + (c.toNat - 48)) 0

/-- Decimal digits of a natural number, as produced by Python `str(n)`
(no padding, most significant first).  Fuel-based so that it reduces
definitionally. -/
def natDigitsAux : Nat → Nat → List Char
  | 0, _ => []
  | fuel + 1, n =>
    if n < 10 then [digitChar n]
    else natDigitsAux fuel (n / 10) ++ [digitChar (n % 10)]

def natDigits (n : Nat) : List Char := natDigitsAux (n + 1) n

/-- Zero-padded fixed-width digit tokens (used to build test inputs such
as `YYYY`, `MM`, `DDD`). -/
def digits2 (n : Nat) : List Char := [digitChar (n / 10 % 10), digitChar (n % 10)]

def digits3 (n : Nat) : List Char :=
  [digitChar (n / 100 % 10), digitChar (n / 10 % 10), digitChar (n % 10)]

def digits4 (n : Nat) : List Char :=
  [digitChar (n / 1000 % 10), digitChar (n / 100 % 10), digitChar (n / 10 % 10),
   digitChar (n % 10)]

/-! ## Proleptic Gregorian calendar (as in CPython's `datetime` module) -/

def isLeap (y : Nat) : Bool := y % 4 = 0 && (y % 100 ≠ 0 || y % 400 = 0)

def daysInMonth (y m : Nat) : Nat :=
  if m = 1 then 31 else if m = 2 then (if isLeap y then 29 else 28)
  else if m = 3 then 31 else if m = 4 then 30 else if m = 5 then 31
  else if m = 6 then 30 else if m = 7 then 31 else if m = 8 then 31
  else if m = 9 then 30 else if m = 10 then 31 else if m = 11 then 30
  else if m = 12 then 31 else 0

/-- Days in year `y` that precede month `m` (CPython `_days_before_month`). -/
def daysBeforeMonth (y m : Nat) : Nat :=
  (if m = 1 then 0 else if m = 2 then 31 else if m = 3 then 59
   else if m = 4 then 90 else if m = 5 then 120 else if m = 6 then 151
   else if m = 7 then 181 else if m = 8 then 212 else if m = 9 then 243
   else if m = 10 then 273 else if m = 11 then 304 else 334)
  + (if 3 ≤ m ∧ isLeap y then 1 else 0)

def daysInYear (y : Nat) : Nat := if isLeap y then 366 else 365

/-- Days before January 1 of year `y` (CPython `_days_before_year`). -/
def daysBeforeYear (y : Nat) : Nat :=
  365 * (y - 1) + (y - 1) / 4 - (y - 1) / 100 + (y - 1) / 400

/-- CPython `date.toordinal`: day 1 is 0001-01-01. -/
def toOrdinal (y m d : Nat) : Nat := daysBeforeYear y + daysBeforeMonth y m + d

def maxOrdinal : Nat := 3652059

/-- Month containing the 0-based day `t` of year `y`, and the 1-based day
of that month (the month-search part of CPython `_ord2ymd`, realised as a
scan over the cumulative table). -/
def dayOfYearToMD (y t : Nat) : Nat × Nat :=
  if t < daysBeforeMonth y 2 then (1, t + 1)
  else if t < daysBeforeMonth y 3 then (2, t - daysBeforeMonth y 2 + 1)
  else if t < daysBeforeMonth y 4 then (3, t - daysBeforeMonth y 3 + 1)
  else if t < daysBeforeMonth y 5 then (4, t - daysBeforeMonth y 4 + 1)
  else if t < daysBeforeMonth y 6 then (5, t - daysBeforeMonth y 5 + 1)
  else if t < daysBeforeMonth y 7 then (6, t - daysBeforeMonth y 6 + 1)
  else if t < daysBeforeMonth y 8 then (7, t - daysBeforeMonth y 7 + 1)
  else if t < daysBeforeMonth y 9 then (8, t - daysBeforeMonth y 8 + 1)
  else if t < daysBeforeMonth y 10 then (9, t - daysBeforeMonth y 9 + 1)
  else if t < daysBeforeMonth y 11 then (10, t - daysBeforeMonth y 10 + 1)
  else if t < daysBeforeMonth y 12 then (11, t - daysBeforeMonth y 11 + 1)
  else (12, t - daysBeforeMonth y 12 + 1)

/-- CPython `date.fromordinal` (`_ord2ymd`): the 400/100/4/1-year divmod
cascade with its end-of-cycle December 31 correction, then the month scan. -/
def fromOrdinal (n : Nat) : Nat × Nat × Nat :=
  let n0 := n - 1
  let n400 := n0 / 146097
  let r400 := n0 % 146097
  let n100 := r400 / 36524
  let r100 := r400 % 36524
  let n4 := r100 / 1461
  let r4 := r100 % 1461
  let n1 := r4 / 365
  let t := r4 % 365
  let year := 400 * n400 + 100 * n100 + 4 * n4 + n1 + 1
  if n1 = 4 ∨ n100 = 4 then (year - 1, 12, 31)
  else
    let md := dayOfYearToMD year t
    (year, md.1, md.2)

/-- Weekday of an ordinal day, Monday = 0 (as `date.weekday()`;
ordinal 1 = 0001-01-01 was a Monday). -/
def ordinalWeekday (n : Nat) : Nat := (n - 1) % 7

/-! ## Regex components

Each component maps a suffix of the input to the list of its candidate
matches `(captures, remainder)`, in the Python `re` backtracking
preference order: alternatives in written order, optional groups with the
present branch first, `\d+` longest first.  A full (anchored) pattern
keeps the first candidate whose remainder is empty, which is exactly the
match the backtracking engine commits to for an `^...$` pattern. -/

/-- Exactly `n` digits (`\d{n}`). -/
def takeDigits : Nat → List Char → Option (List Char × List Char)
  | 0, s => some ([], s)
  | _ + 1, [] => none
  | n + 1, c :: s =>
    if c.isDigit then (takeDigits n s).map (fun p => (c :: p.1, p.2)) else none

/-- `\d+`, greedy: all nonempty digit prefixes, longest first. -/
def digitRuns : List Char → List (List Char × List Char)
  | [] => []
  | c :: s =>
    if c.isDigit then
      ((digitRuns s).map (fun p => (c :: p.1, p.2))) ++ [([c], s)]
    else []

structure DateCaps where
  year : List Char
  month : Option (List Char) := none
  day : Option (List Char) := none
  day_ord : Option (List Char) := none
  week : Option (List Char) := none
  week_day : Option (List Char) := none
deriving DecidableEq, Repr

/-- The `iso_date_extended` pattern:
`year(4) ( -month(2) (-day(2))? | -day_ord(3) | -W week(2) (-week_day(1))? )?`. -/
def iso_date_extended (s : List Char) : List (DateCaps × List Char) :=
  match takeDigits 4 s with
  | none => []
  | some (y, r) =>
    (match r with
     | c :: r1 =>
       if c = '-' then
         -- alternative 1: month, optional day
         (match takeDigits 2 r1 with
          | some (mo, r2) =>
            (match r2 with
             | c2 :: r3 =>
               if c2 = '-' then
                 match takeDigits 2 r3 with
                 | some (d, r4) => [(⟨y, some mo, some d, none, none, none⟩, r4)]
                 | none => []
               else []
             | [] => []) ++ [(⟨y, some mo, none, none, none, none⟩, r2)]
          | none => []) ++
         -- alternative 2: ordinal day
         (match takeDigits 3 r1 with
          | some (o, r2) => [(⟨y, none, none, some o, none, none⟩, r2)]
          | none => []) ++
         -- alternative 3: week, optional week-day
         (match r1 with
          | c2 :: r2 =>
            if c2 = 'W' then
              match takeDigits 2 r2 with
              | some (w, r3) =>
                (match r3 with
                 | c3 :: r4 =>
                   if c3 = '-' then
                     match takeDigits 1 r4 with
                     | some (wd, r5) => [(⟨y, none, none, none, some w, some wd⟩, r5)]
                     | none => []
                   else []
                 | [] => []) ++ [(⟨y, none, none, none, some w, none⟩, r3)]
              | none => []
            else []
          | [] => [])
       else []
     | [] => []) ++
    [(⟨y, none, none, none, none, none⟩, r)]

/-- The `iso_date` (basic form) pattern:
`year(4) ( month(2) day(2)? | day_ord(3) | W week(2) week_day(1)? )?`. -/
def iso_date (s : List Char) : List (DateCaps × List Char) :=
  match takeDigits 4 s with
  | none => []
  | some (y, r) =>
    (match takeDigits 2 r with
     | some (mo, r2) =>
       (match takeDigits 2 r2 with
        | some (d, r3) => [(⟨y, some mo, some d, none, none, none⟩, r3)]
        | none => []) ++ [(⟨y, some mo, none, none, none, none⟩, r2)]
     | none => []) ++
    (match takeDigits 3 r with
     | some (o, r2) => [(⟨y, none, none, some o, none, none⟩, r2)]
     | none => []) ++
    (match r with
     | c :: r2 =>
       if c = 'W' then
         match takeDigits 2 r2 with
         | some (w, r3) =>
           (match takeDigits 1 r3 with
            | some (wd, r4) => [(⟨y, none, none, none, some w, some wd⟩, r4)]
            | none => []) ++ [(⟨y, none, none, none, some w, none⟩, r3)]
         | none => []
       else []
     | [] => []) ++
    [(⟨y, none, none, none, none, none⟩, r)]

structure TimeCaps where
  hour : List Char
  minute : Option (List Char) := none
  sec : Option (List Char) := none
  sub_sec : Option (List Char) := none
deriving DecidableEq, Repr

/-- The `iso_time_extended` pattern:
`hour(2) ( :minute(2) ( :sec(2) ( [,.] sub_sec(\d+) )? )? )?`. -/
def iso_time_extended (s : List Char) : List (TimeCaps × List Char) :=
  match takeDigits 2 s with
  | none => []
  | some (h, r) =>
    (match r with
     | c :: r1 =>
       if c = ':' then
         match takeDigits 2 r1 with
         | some (mi, r2) =>
           (match r2 with
            | c2 :: r3 =>
              if c2 = ':' then
                match takeDigits 2 r3 with
                | some (se, r4) =>
                  (match r4 with
                   | c3 :: r5 =>
                     if c3 = ',' ∨ c3 = '.' then
                       (digitRuns r5).map (fun p => (⟨h, some mi, some se, some p.1⟩, p.2))
                     else []
                   | [] => []) ++ [(⟨h, some mi, some se, none⟩, r4)]
                | none => []
              else []
            | [] => []) ++ [(⟨h, some mi, none, none⟩, r2)]
         | none => []
       else []
     | [] => []) ++
    [(⟨h, none, none, none⟩, r)]

/-- The `iso_time` (basic form) pattern:
`hour(2) ( minute(2) ( sec(2) sub_sec(\d+)? )? )?`. -/
def iso_time (s : List Char) : List (TimeCaps × List Char) :=
  match takeDigits 2 s with
  | none => []
  | some (h, r) =>
    (match takeDigits 2 r with
     | some (mi, r2) =>
       (match takeDigits 2 r2 with
        | some (se, r3) =>
          ((digitRuns r3).map (fun p => (⟨h, some mi, some se, some p.1⟩, p.2))) ++
          [(⟨h, some mi, some se, none⟩, r3)]
        | none => []) ++ [(⟨h, some mi, none, none⟩, r2)]
     | none => []) ++
    [(⟨h, none, none, none⟩, r)]

/-- The `iso_tz_extended` pattern: `Z | [+-] hh(2) ( : mm(2) )?`.
The captured value is the whole `tz` group text (which is all `parse`
reads from it). -/
def iso_tz_extended (s : List Char) : List (List Char × List Char) :=
  match s with
  | [] => []
  | c :: r =>
    if c = 'Z' then [(['Z'], r)]
    else if c = '+' ∨ c = '-' then
      match takeDigits 2 r with
      | some (h, r1) =>
        (match r1 with
         | c2 :: r2 =>
           if c2 = ':' then
             match takeDigits 2 r2 with
             | some (m, r3) => [(c :: h ++ ':' :: m, r3)]
             | none => []
           else []
         | [] => []) ++ [(c :: h, r1)]
      | none => []
    else []

/-- The `iso_tz` (basic form) pattern: `Z | [+-] hh(2) mm(2)?`. -/
def iso_tz (s : List Char) : List (List Char × List Char) :=
  match s with
  | [] => []
  | c :: r =>
    if c = 'Z' then [(['Z'], r)]
    else if c = '+' ∨ c = '-' then
      match takeDigits 2 r with
      | some (h, r1) =>
        (match takeDigits 2 r1 with
         | some (m, r2) => [(c :: h ++ m, r2)]
         | none => []) ++ [(c :: h, r1)]
      | none => []
    else []

structure TzGlobCaps where
  frag : List Char
  direction : Option Char := none
  hour : Option (List Char) := none
  minute : Option (List Char) := none
deriving DecidableEq, Repr

/-- The `iso_tz_glob` pattern: `Z | (?P<direction>[+-]) (?P<hour>\d{2})
( :? (?P<min>\d{2}) )?`.  Its inner groups are named `direction`, `hour`
and `min`: when the `tz` variant matches an input, `parse` picks these
up through its generic `m.get('hour')` / `m.get('min')` reads. -/
def iso_tz_glob (s : List Char) : List (TzGlobCaps × List Char) :=
  match s with
  | [] => []
  | c :: r =>
    if c = 'Z' then [(⟨['Z'], none, none, none⟩, r)]
    else if c = '+' ∨ c = '-' then
      match takeDigits 2 r with
      | some (h, r1) =>
        (match r1 with
         | c2 :: r2 =>
           if c2 = ':' then
             match takeDigits 2 r2 with
             | some (m, r3) => [(⟨c :: h ++ ':' :: m, some c, some h, some m⟩, r3)]
             | none => []
           else []
         | [] => []) ++
        (match takeDigits 2 r1 with
         | some (m, r2) => [(⟨c :: h ++ m, some c, some h, some m⟩, r2)]
         | none => []) ++
        [(⟨c :: h, some c, some h, none⟩, r1)]
      | none => []
    else []

/-! ## The five compiled patterns (`PATTERNS`) -/

/-- Union of named capture groups read by `parse` via `matches.groupdict()`.
`hasDate` records whether the pattern has a (matched) `date` group;
the time-only and tz-only patterns have no such key, which is what
`m.get('date', None) is None` observes. -/
structure Fields where
  hasDate : Bool
  year : Option (List Char) := none
  month : Option (List Char) := none
  day : Option (List Char) := none
  day_ord : Option (List Char) := none
  week : Option (List Char) := none
  week_day : Option (List Char) := none
  hour : Option (List Char) := none
  minute : Option (List Char) := none
  sec : Option (List Char) := none
  sub_sec : Option (List Char) := none
  tz : Option (List Char) := none
deriving DecidableEq, Repr

/-- First candidate with empty remainder: the match of the `^...$`
anchored pattern. -/
def firstFull {α : Type} (xs : List (α × List Char)) : Option α :=
  (xs.find? (fun p => p.2.isEmpty)).map Prod.fst

def fieldsOfDT (dc : DateCaps) (tp : Option (TimeCaps × Option (List Char))) : Fields :=
  { hasDate := true
    year := some dc.year, month := dc.month, day := dc.day
    day_ord := dc.day_ord, week := dc.week, week_day := dc.week_day
    hour := tp.map (fun p => p.1.hour)
    minute := tp.bind (fun p => p.1.minute)
    sec := tp.bind (fun p => p.1.sec)
    sub_sec := tp.bind (fun p => p.1.sub_sec)
    tz := tp.bind Prod.snd }

def fieldsOfTime (tc : TimeCaps) (z : Option (List Char)) : Fields :=
  { hasDate := false
    hour := some tc.hour, minute := tc.minute, sec := tc.sec
    sub_sec := tc.sub_sec, tz := z }

def fieldsOfTzGlob (g : Option TzGlobCaps) : Fields :=
  { hasDate := false
    hour := g.bind TzGlobCaps.hour
    minute := g.bind TzGlobCaps.minute
    tz := g.map TzGlobCaps.frag }

/-- `T?`: both ways to treat a leading `T`, greedy (consume it first). -/
def optT (s : List Char) : List (List Char) :=
  match s with
  | c :: r => if c = 'T' then [r, s] else [s]
  | [] => [s]

/-- A date-time-tz pattern: `^ date ( T time tz? )? $`. -/
def matchDateTime (dateM : List Char → List (DateCaps × List Char))
    (timeM : List Char → List (TimeCaps × List Char))
    (tzM : List Char → List (List Char × List Char))
    (s : List Char) : Option Fields :=
  firstFull <|
    (dateM s).flatMap (fun dr =>
      (match dr.2 with
       | c :: r1 =>
         if c = 'T' then
           (timeM r1).flatMap (fun tr =>
             ((tzM tr.2).map (fun zr => (fieldsOfDT dr.1 (some (tr.1, some zr.1)), zr.2))) ++
             [(fieldsOfDT dr.1 (some (tr.1, none)), tr.2)])
         else []
       | [] => []) ++
      [(fieldsOfDT dr.1 none, dr.2)])

/-- A time-tz pattern: `^ T? time tz? $`. -/
def matchTimeOnly (timeM : List Char → List (TimeCaps × List Char))
    (tzM : List Char → List (List Char × List Char))
    (s : List Char) : Option Fields :=
  firstFull <|
    (optT s).flatMap (fun r1 =>
      (timeM r1).flatMap (fun tr =>
        ((tzM tr.2).map (fun zr => (fieldsOfTime tr.1 (some zr.1), zr.2))) ++
        [(fieldsOfTime tr.1 none, tr.2)]))

/-- The tz-only pattern: `^ T? iso_tz_glob? $`. -/
def matchTzOnly (s : List Char) : Option Fields :=
  firstFull <|
    (optT s).flatMap (fun r1 =>
      ((iso_tz_glob r1).map (fun gr => (fieldsOfTzGlob (some gr.1), gr.2))) ++
      [(fieldsOfTzGlob none, r1)])

inductive Variant
  | dt_ext | dt | time_ext | time | tz
deriving DecidableEq, Repr

def matchVariant : Variant → List Char → Option Fields
  | .dt_ext, s => matchDateTime iso_date_extended iso_time_extended iso_tz_extended s
  | .dt, s => matchDateTime iso_date iso_time iso_tz s
  | .time_ext, s => matchTimeOnly iso_time_extended iso_tz_extended s
  | .time, s => matchTimeOnly iso_time iso_tz s
  | .tz, s => matchTzOnly s

/-! ## The iteration order of the `PATTERNS` dict

`PATTERNS` is a Python 2 dict literal with the keys inserted in the order
`dt_ext, dt, time_ext, time, tz`.  `parse` iterates `PATTERNS.values()`,
whose order is the hash-table slot order of CPython 2.7 (64-bit string
hash, no hash randomisation, 8-slot table: 5 entries never trigger a
resize).  We reproduce that hash table below and derive the iteration
order from it. -/

def pow2_64 : Nat := 18446744073709551616

/-- CPython 2.7 string hash (64-bit `C long` arithmetic). -/
def py2HashAux : List Char → Nat → Nat
  | [], x => x
  | c :: r, x => py2HashAux r ((1000003 * x) % pow2_64 ^^^ c.toNat)

def py2Hash (s : List Char) : Nat :=
  match s with
  | [] => 0
  | c :: _ =>
    let x := py2HashAux s ((c.toNat <<< 7) % pow2_64) ^^^ s.length
    if x = pow2_64 - 1 then pow2_64 - 2 else x

/-- CPython dict open-addressing probe: insert `key` with hash `h` into an
8-slot table (`i = 5*i + perturb + 1; perturb >>= 5`). -/
def py2Insert (fuel : Nat) (table : List (Option (List Char))) (key : List Char)
    (h : Nat) : List (Option (List Char)) :=
  go fuel (h % 8) h table
where
  go : Nat → Nat → Nat → List (Option (List Char)) → List (Option (List Char))
    | 0, _, _, t => t
    | fuel + 1, i, perturb, t =>
      if t.getD (i % 8) none = none then t.set (i % 8) (some key)
      else go fuel ((5 * i + perturb + 1) % pow2_64) (perturb >>> 5) t

def py2DictOrder (keys : List (List Char)) : List (List Char) :=
  let table := keys.foldl (fun t k => py2Insert 64 t k (py2Hash k))
    [none, none, none, none, none, none, none, none]
  table.filterMap id

def patternKeys : List (List Char) :=
  ["dt_ext".toList, "dt".toList, "time_ext".toList, "time".toList, "tz".toList]

def variantName : Variant → List Char
  | .dt_ext => "dt_ext".toList
  | .dt => "dt".toList
  | .time_ext => "time_ext".toList
  | .time => "time".toList
  | .tz => "tz".toList

/-- The order in which `parse` tries the five patterns: the iteration
order of the CPython 2.7 `PATTERNS` dict (see `patternOrder_is_dict_order`
below).  Note that it is not the insertion order of the dict literal. -/
def patternOrder : List Variant := [.dt_ext, .time_ext, .tz, .dt, .time]

/-- The precedence order of spec section 4.1 (the insertion order of the
`PATTERNS` dict literal). -/
def specOrder : List Variant := [.dt_ext, .dt, .time_ext, .time, .tz]

def matchFirst : List Variant → List Char → Option Fields
  | [], _ => none
  | v :: vs, s =>
    match matchVariant v s with
    | some f => some f
    | none => matchFirst vs s

/-! ## Error values

All three are Python `ValueError`s at runtime; they are distinguished by
their messages: `"Unparsable date {input}"` raised by `parse` when no
pattern matched, `"not an ISO8601 tz"` raised by `TimeZone.__init__`, and
the various `ValueError`s raised inside `strptime` / the `datetime` and
`date` constructors / `date.fromordinal` / `timedelta` overflow, which we
collapse into one constructor since `parse` treats none of them. -/

inductive Err
  | unparsable (input : List Char)
  | invalidTimezone (frag : List Char)
  | valueError
deriving DecidableEq, Repr

/-- The reference timestamp (`now`): a `datetime`, of which `parse` reads
only `year`, `month` and `day`. -/
structure Ref where
  year : Nat
  month : Nat
  day : Nat
  hour : Nat := 0
  minute : Nat := 0
  second : Nat := 0
  microsecond : Nat := 0
deriving DecidableEq, Repr

/-- `datetime` invariants guaranteed for every reference the caller can
actually supply (a real `datetime.datetime`). -/
def Ref.Valid (r : Ref) : Prop :=
  1 ≤ r.year ∧ r.year ≤ 9999 ∧ 1 ≤ r.month ∧ r.month ≤ 12 ∧
  1 ≤ r.day ∧ r.day ≤ daysInMonth r.year r.month ∧
  r.hour ≤ 23 ∧ r.minute ≤ 59 ∧ r.second ≤ 59 ∧ r.microsecond ≤ 999999

/-- The resolved timezone of the result: either the fixed-offset
`TimeZone(name)` instance (offset in minutes east of UTC, with the
original fragment as its name) or the process-local `TZ_LOCAL` instance,
whose offset is derived from the ambient rule at the composed date. -/
inductive Tz
  | fixed (minutes : Int) (name : List Char)
  | localTz
deriving DecidableEq, Repr

/-- The returned `datetime`. -/
structure Composed where
  year : Nat
  month : Nat
  day : Nat
  hour : Nat
  minute : Nat
  second : Nat
  microsecond : Nat
  tz : Tz
deriving DecidableEq, Repr

deriving instance DecidableEq for Except

/-- The ambient local timezone configuration captured by the module when
it is imported (`time.timezone` / `time.altzone` / the daylight rule):
`std` and `dst` are offsets in minutes east of UTC, `isdst` is the
daylight-saving predicate evaluated on a local date and time
(`LocalTimezone._isdst`). -/
structure AmbientRule where
  std : Int
  dst : Int
  isdst : Nat → Nat → Nat → Nat → Nat → Nat → Bool

/-- `utcoffset` of a composed result, in minutes: a fixed offset is its
own value; `TZ_LOCAL` evaluates the daylight rule at the composed local
date and time (`LocalTimezone.utcoffset`). -/
def utcoffsetMinutes (rule : AmbientRule) (c : Composed) : Int :=
  match c.tz with
  | .fixed k _ => k
  | .localTz =>
    if rule.isdst c.year c.month c.day c.hour c.minute c.second then rule.dst
    else rule.std

/-! ## The timezone resolver (`class TimeZone`) -/

/-- `TimeZone.__init__(name)`: `"Z"` is offset 0; otherwise the name must
match `PATTERNS['tz']` (`^T? iso_tz_glob? $`), and the offset is
`timedelta(hours=int(direction+hour), minutes=int(direction+min))`
for whichever of the two groups matched; `none` models the
`ValueError('not an ISO8601 tz')`. -/
def TimeZone (name : List Char) : Option Int :=
  if name = ['Z'] then some 0
  else
    match firstFull ((optT name).flatMap (fun r1 =>
      ((iso_tz_glob r1).map (fun gr => (some gr.1, gr.2))) ++ [(none, r1)])) with
    | none => none
    | some g =>
      let sign : Int := match g.bind TzGlobCaps.direction with
        | some c => if c = '-' then -1 else 1
        | none => 1
      let h : Int := match g.bind TzGlobCaps.hour with
        | some ds => sign * digitsToNat ds
        | none => 0
      let m : Int := match g.bind TzGlobCaps.minute with
        | some ds => sign * digitsToNat ds
        | none => 0
      some (60 * h + m)

/-! ## `strptime` (CPython 2.7 `_strptime`)

`parse` assembles a format string and a value string from the captured
tokens (plus, when the pattern had no `date` group, `str(now.year)`,
`str(now.month)`, `str(now.day)`) and calls `datetime.strptime`.  Each
directive must match its whole token (tokens are space-separated and the
directive regexes cannot consume a space; a partial token match makes the
overall regex fail).  The directive token grammars below are those of
`_strptime.TimeRE`. -/

/-- `%Y` is `\d\d\d\d`: exactly four digits. -/
def dirY (ds : List Char) : Option Nat :=
  if ds.length = 4 ∧ ds.all Char.isDigit then some (digitsToNat ds) else none

/-- `%m` is `1[0-2]|0[1-9]|[1-9]`. -/
def dirm (ds : List Char) : Option Nat :=
  if ds.all Char.isDigit ∧ 1 ≤ digitsToNat ds ∧
      ((ds.length = 1 ∧ digitsToNat ds ≤ 9) ∨ (ds.length = 2 ∧ digitsToNat ds ≤ 12))
  then some (digitsToNat ds) else none

/-- `%d` is `3[01]|[1-2]\d|0[1-9]|[1-9]`. -/
def dird (ds : List Char) : Option Nat :=
  if ds.all Char.isDigit ∧ 1 ≤ digitsToNat ds ∧
      ((ds.length = 1 ∧ digitsToNat ds ≤ 9) ∨ (ds.length = 2 ∧ digitsToNat ds ≤ 31))
  then some (digitsToNat ds) else none

/-- `%H` is `2[0-3]|[0-1]\d|\d`. -/
def dirH (ds : List Char) : Option Nat :=
  if ds.all Char.isDigit ∧ (ds.length = 1 ∨ (ds.length = 2 ∧ digitsToNat ds ≤ 23))
  then some (digitsToNat ds) else none

/-- `%M` is `[0-5]\d|\d`. -/
def dirM (ds : List Char) : Option Nat :=
  if ds.all Char.isDigit ∧ (ds.length = 1 ∨ (ds.length = 2 ∧ digitsToNat ds ≤ 59))
  then some (digitsToNat ds) else none

/-- `%S` is `6[0-1]|[0-5]\d|\d` (leap seconds pass the regex; the
`datetime` constructor rejects them later). -/
def dirS (ds : List Char) : Option Nat :=
  if ds.all Char.isDigit ∧ (ds.length = 1 ∨ (ds.length = 2 ∧ digitsToNat ds ≤ 61))
  then some (digitsToNat ds) else none

/-- `%j` on its three-digit token: the alternation accepts exactly the
values 1–366 as a whole-token match. -/
def dirj (ds : List Char) : Option Nat :=
  if ds.all Char.isDigit ∧ ds.length = 3 ∧ 1 ≤ digitsToNat ds ∧ digitsToNat ds ≤ 366
  then some (digitsToNat ds) else none

/-- `%W` receives `str(int(week) - 1)`: negative values fail the regex
`5[0-3]|[0-4]\d|\d`, which otherwise accepts exactly 0–53. -/
def dirW (w : Int) : Option Int :=
  if 0 ≤ w ∧ w ≤ 53 then some w else none

/-- `%w` is `[0-6]`; the value has already been mapped by `parse`
(`7 → 0`), so the original digits 8 and 9 fail here.  `_strptime` then
converts `0 → 6, v → v-1` to the Monday=0 convention. -/
def dirw (v : Nat) : Option Nat :=
  if v ≤ 6 then some v else none

/-- `_calc_julian_from_U_or_W` for `%W` (week starts Monday):
`week_of_year` is 0-based, `day_of_week` is Monday=0.  The result may be
zero or negative (days of the previous year). -/
def calcJulianFromW (year : Nat) (weekOfYear : Int) (dayOfWeek : Nat) : Int :=
  let firstWeekday : Int := ordinalWeekday (toOrdinal year 1 1)
  let week0Length : Int := (7 - firstWeekday) % 7
  if weekOfYear = 0 then 1 + dayOfWeek - firstWeekday
  else week0Length + 7 * (weekOfYear - 1) + dayOfWeek + 1

/-! ## `parse` -/

/-- Microsecond contribution of the sub-second token:
`int(Decimal('.' + sub_sec) * 1000000)`.  `Decimal(str)` is exact; the
multiplication rounds the exact coefficient to the default context's 28
significant digits with round-half-even (carrying into a shorter
coefficient when rounding yields `10^28`); `int()` then truncates toward
zero. -/
def decimalMicros (ds : List Char) : Nat :=
  let len := ds.length
  let c := digitsToNat ds * 1000000
  let k := (natDigits c).length
  if k ≤ 28 then c / 10 ^ len
  else
    let sh := k - 28
    let p := 10 ^ sh
    let q := c / p
    let r := c % p
    let q1 :=
      if 2 * r > p then q + 1
      else if 2 * r < p then q
      else if q % 2 = 0 then q else q + 1
    let q2 := if q1 = 10 ^ 28 then 10 ^ 27 else q1
    let sh2 := if q1 = 10 ^ 28 then sh + 1 else sh
    if len ≤ sh2 then q2 * 10 ^ (sh2 - len) else q2 / 10 ^ (len - sh2)

/-- `d + timedelta(microseconds=ms)` on a timezone-annotated `datetime`:
exact carry into seconds, minutes, hours and days; crossing the end of
the representable range raises (`OverflowError`). -/
def addMicros (c : Composed) (ms : Nat) : Except Err Composed :=
  let t := c.microsecond + ms
  let s := c.second + t / 1000000
  let mi := c.minute + s / 60
  let h := c.hour + mi / 60
  let dd := h / 24
  if dd = 0 then
    .ok { c with microsecond := t % 1000000, second := s % 60, minute := mi % 60,
                 hour := h % 24 }
  else
    let o := toOrdinal c.year c.month c.day + dd
    if o ≤ maxOrdinal then
      let ymd := fromOrdinal o
      .ok { year := ymd.1, month := ymd.2.1, day := ymd.2.2, hour := h % 24,
            minute := mi % 60, second := s % 60, microsecond := t % 1000000,
            tz := c.tz }
    else .error .valueError

/-- The merge/composition stage of `parse`, after a pattern has matched:
build the strptime params (filling `%Y`/`%m`/`%d` from `now` only when
the pattern had no `date` group), run strptime's directive grammars and
date resolution, attach the timezone, and add the sub-second delta. -/
def compose (f : Fields) (now : Ref) : Except Err Composed :=
  let yTok : Option (List Char) :=
    match f.year with
    | some t => some t
    | none => if f.hasDate then none else some (natDigits now.year)
  let mTok : Option (List Char) :=
    match f.month with
    | some t => some t
    | none => if f.hasDate then none else some (natDigits now.month)
  let dTok : Option (List Char) :=
    match f.day with
    | some t => some t
    | none => if f.hasDate then none else some (natDigits now.day)
  -- directive matching (any failure is the same uncaught ValueError)
  match yTok.elim (some 1900) dirY with
  | none => .error .valueError
  | some year =>
  match mTok.elim (some 1) dirm with
  | none => .error .valueError
  | some month =>
  match dTok.elim (some 1) dird with
  | none => .error .valueError
  | some day =>
  match f.hour.elim (some 0) dirH with
  | none => .error .valueError
  | some hour =>
  match f.minute.elim (some 0) dirM with
  | none => .error .valueError
  | some minute =>
  match f.sec.elim (some 0) dirS with
  | none => .error .valueError
  | some second =>
  match f.day_ord.elim (some none) (fun t => (dirj t).map some) with
  | none => .error .valueError
  | some jTok =>
  match f.week.elim (some none) (fun t => (dirW ((digitsToNat t : Int) - 1)).map some) with
  | none => .error .valueError
  | some wk =>
  match f.week_day.elim (some none)
      (fun t => (dirw (if digitsToNat t = 7 then 0 else digitsToNat t)).map some) with
  | none => .error .valueError
  | some wd =>
  -- date resolution (_strptime): weekday in Monday=0 convention
  let weekday : Option Nat := wd.map (fun v => if v = 0 then 6 else v - 1)
  let julian : Option Int :=
    match jTok with
    | some j => some (j : Int)
    | none =>
      match wk, weekday with
      | some w, some dw => some (calcJulianFromW year w dw)
      | _, _ => none
  match julian with
  | none =>
    -- date(year, month, day) validation, then datetime(...)
    if 1 ≤ year ∧ year ≤ 9999 ∧ day ≤ daysInMonth year month then
      if second ≤ 59 then
        finish ⟨year, month, day, hour, minute, second, 0, .localTz⟩ f
      else .error .valueError
    else .error .valueError
  | some jul =>
    -- date(year, 1, 1) inside the julian computation, then fromordinal
    if 1 ≤ year ∧ year ≤ 9999 then
      let o : Int := jul - 1 + (toOrdinal year 1 1 : Int)
      if 1 ≤ o ∧ o ≤ (maxOrdinal : Int) then
        let ymd := fromOrdinal o.toNat
        if second ≤ 59 then
          finish ⟨ymd.1, ymd.2.1, ymd.2.2, hour, minute, second, 0, .localTz⟩ f
        else .error .valueError
      else .error .valueError
    else .error .valueError
where
  /-- Attach the timezone (`TimeZone(m['tz'])` or `TZ_LOCAL`) and add the
  sub-second microseconds. -/
  finish (c : Composed) (f : Fields) : Except Err Composed :=
    match f.tz with
    | some frag =>
      match TimeZone frag with
      | none => .error (.invalidTimezone frag)
      | some off =>
        match f.sub_sec with
        | some ds => addMicros { c with tz := .fixed off frag } (decimalMicros ds)
        | none => .ok { c with tz := .fixed off frag }
    | none =>
      match f.sub_sec with
      | some ds => addMicros c (decimalMicros ds)
      | none => .ok c

/-- `parse(date, now)` with the pattern order of CPython's `PATTERNS`
dict abstracted as a parameter. -/
def parseWith (order : List Variant) (s : List Char) (now : Ref) :
    Except Err Composed :=
  match matchFirst order s with
  | none => .error (.unparsable s)
  | some f => compose f now

/-- The public `parse`. -/
def parse (s : List Char) (now : Ref) : Except Err Composed :=
  parseWith patternOrder s now

/-! ## Spec-side definitions

The following definition follows the words of the spec, not the source;
it is used to exhibit where the source diverges from the ISO 8601 week
semantics the spec prescribes. -/

/-- Calendar date denoted by an ISO week-date triple, per the spec:
"ISO week 1 is the week containing the first Thursday of the year" and
weekday 1 is Monday through 7 Sunday. -/
def specIsoWeekDateYMD (y w d : Nat) : Nat × Nat × Nat :=
  let jan1 := toOrdinal y 1 1
  let firstThursday := jan1 + (3 + 7 - ordinalWeekday jan1) % 7
  let week1Monday := firstThursday - 3
  fromOrdinal (week1Monday + 7 * (w - 1) + (d - 1))

/-- The reference timestamp of the doctest suite:
`datetime(1950, 2, 27, 14, 17, 22, 110, tzinfo=TZ_LOCAL)`. -/
def ref0 : Ref := ⟨1950, 2, 27, 14, 17, 22, 110⟩

/-! # Theorems -/

/-! ## Character and token basics -/

theorem ne_of_digit {c d : Char} (hc : c.isDigit = true) (hd : d.isDigit = false) :
    c ≠ d := by
  intro h
  rw [h, hd] at hc
  exact absurd hc (by simp)

theorem digitChar_isDigit {k : Nat} (h : k ≤ 9) : (digitChar k).isDigit = true := by
  interval_cases k <;> decide

theorem digitChar_toNat {k : Nat} (h : k ≤ 9) : (digitChar k).toNat = 48 + k := by
  interval_cases k <;> decide

theorem digits2_all (n : Nat) : (digits2 n).all Char.isDigit = true := by
  simp [digits2, List.all_cons, digitChar_isDigit (Nat.le_of_lt_succ (Nat.mod_lt _ (by norm_num)))]

theorem digits3_all (n : Nat) : (digits3 n).all Char.isDigit = true := by
  simp [digits3, List.all_cons, digitChar_isDigit (Nat.le_of_lt_succ (Nat.mod_lt _ (by norm_num)))]

theorem digits4_all (n : Nat) : (digits4 n).all Char.isDigit = true := by
  simp [digits4, List.all_cons, digitChar_isDigit (Nat.le_of_lt_succ (Nat.mod_lt _ (by norm_num)))]

theorem digitsToNat_digits2 {n : Nat} (h : n ≤ 99) : digitsToNat (digits2 n) = n := by
  have h1 : n / 10 % 10 ≤ 9 := Nat.le_of_lt_succ (Nat.mod_lt _ (by norm_num))
  have h2 : n % 10 ≤ 9 := Nat.le_of_lt_succ (Nat.mod_lt _ (by norm_num))
  simp [digitsToNat, digits2, digitChar_toNat h1, digitChar_toNat h2]
  omega

theorem digitsToNat_digits3 {n : Nat} (h : n ≤ 999) : digitsToNat (digits3 n) = n := by
  have h1 : n / 100 % 10 ≤ 9 := Nat.le_of_lt_succ (Nat.mod_lt _ (by norm_num))
  have h2 : n / 10 % 10 ≤ 9 := Nat.le_of_lt_succ (Nat.mod_lt _ (by norm_num))
  have h3 : n % 10 ≤ 9 := Nat.le_of_lt_succ (Nat.mod_lt _ (by norm_num))
  simp [digitsToNat, digits3, digitChar_toNat h1, digitChar_toNat h2, digitChar_toNat h3]
  omega

theorem digitsToNat_digits4 {n : Nat} (h : n ≤ 9999) : digitsToNat (digits4 n) = n := by
  have h1 : n / 1000 % 10 ≤ 9 := Nat.le_of_lt_succ (Nat.mod_lt _ (by norm_num))
  have h2 : n / 100 % 10 ≤ 9 := Nat.le_of_lt_succ (Nat.mod_lt _ (by norm_num))
  have h3 : n / 10 % 10 ≤ 9 := Nat.le_of_lt_succ (Nat.mod_lt _ (by norm_num))
  have h4 : n % 10 ≤ 9 := Nat.le_of_lt_succ (Nat.mod_lt _ (by norm_num))
  simp [digitsToNat, digits4, digitChar_toNat h1, digitChar_toNat h2, digitChar_toNat h3,
    digitChar_toNat h4]
  omega

theorem takeDigits_nil (n : Nat) : takeDigits (n + 1) [] = none := rfl

theorem takeDigits_not_digit {c : Char} (h : c.isDigit = false) (n : Nat)
    (s : List Char) : takeDigits (n + 1) (c :: s) = none := by
  simp [takeDigits, h]

theorem takeDigits_exact (t r : List Char) (h : t.all Char.isDigit = true) :
    takeDigits t.length (t ++ r) = some (t, r) := by
  induction t with
  | nil => rfl
  | cons c t ih =>
    simp only [List.all_cons, Bool.and_eq_true] at h
    simp [takeDigits, h.1, ih h.2]

theorem takeDigits2_digits2 (n : Nat) (r : List Char) :
    takeDigits 2 (digits2 n ++ r) = some (digits2 n, r) :=
  takeDigits_exact (digits2 n) r (digits2_all n)

theorem takeDigits3_digits3 (n : Nat) (r : List Char) :
    takeDigits 3 (digits3 n ++ r) = some (digits3 n, r) :=
  takeDigits_exact (digits3 n) r (digits3_all n)

theorem takeDigits4_digits4 (n : Nat) (r : List Char) :
    takeDigits 4 (digits4 n ++ r) = some (digits4 n, r) :=
  takeDigits_exact (digits4 n) r (digits4_all n)

theorem takeDigits_eq_some {n : Nat} {s t r : List Char}
    (h : takeDigits n s = some (t, r)) :
    s = t ++ r ∧ t.length = n ∧ t.all Char.isDigit = true := by
  induction n generalizing s t with
  | zero =>
    simp [takeDigits] at h
    simp [h.1, h.2]
  | succ n ih =>
    match s with
    | [] => simp [takeDigits] at h
    | c :: s' =>
      by_cases hc : c.isDigit
      · rw [takeDigits, if_pos hc] at h
        cases htd : takeDigits n s' with
        | none => rw [htd] at h; simp at h
        | some p =>
          rw [htd] at h
          simp only [Option.map_some', Option.some.injEq, Prod.mk.injEq] at h
          obtain ⟨h1, h2⟩ := h
          subst h1
          subst h2
          obtain ⟨e1, e2, e3⟩ := ih htd
          exact ⟨by simp [e1], by simp [e2], by simp [hc, e3]⟩
      · simp [takeDigits, hc] at h

/-! ## Disjointness of the reordered pattern match-sets

The CPython dict iterates `PATTERNS` as `dt_ext, time_ext, tz, dt, time`,
while the spec's precedence order is `dt_ext, dt, time_ext, time, tz`.
The two orders differ only by moving `time_ext` and `tz` ahead of `dt`,
and `tz` ahead of `time`; the lemmas below show that no input matched by
the basic date pattern is matched by the extended time or tz pattern, and
no input matched by the basic time pattern is matched by the tz pattern,
so the first structural match is the same under both orders. -/

theorem time_ext_none {a c : Char} (b : Char) (r : List Char)
    (ha : a.isDigit = true) (hc : c.isDigit = true) :
    matchVariant .time_ext (a :: b :: c :: r) = none := by
  have haT : a ≠ 'T' := ne_of_digit ha (by decide)
  have hccol : c ≠ ':' := ne_of_digit hc (by decide)
  have hcZ : c ≠ 'Z' := ne_of_digit hc (by decide)
  have hcp : c ≠ '+' := ne_of_digit hc (by decide)
  have hcm : c ≠ '-' := ne_of_digit hc (by decide)
  by_cases hb : b.isDigit
  · simp [matchVariant, matchTimeOnly, optT, haT, iso_time_extended, takeDigits,
      ha, hb, hccol, iso_tz_extended, hcZ, hcp, hcm, firstFull]
  · simp [matchVariant, matchTimeOnly, optT, haT, iso_time_extended, takeDigits,
      ha, hb, firstFull]

theorem tz_none_digit {a : Char} (r : List Char) (ha : a.isDigit = true) :
    matchVariant .tz (a :: r) = none := by
  have haT : a ≠ 'T' := ne_of_digit ha (by decide)
  have haZ : a ≠ 'Z' := ne_of_digit ha (by decide)
  have hap : a ≠ '+' := ne_of_digit ha (by decide)
  have ham : a ≠ '-' := ne_of_digit ha (by decide)
  simp [matchVariant, matchTzOnly, optT, haT, iso_tz_glob, haZ, hap, ham, firstFull]

theorem tz_none_T_digit {b : Char} (r : List Char) (hb : b.isDigit = true) :
    matchVariant .tz ('T' :: b :: r) = none := by
  have hbZ : b ≠ 'Z' := ne_of_digit hb (by decide)
  have hbp : b ≠ '+' := ne_of_digit hb (by decide)
  have hbm : b ≠ '-' := ne_of_digit hb (by decide)
  simp [matchVariant, matchTzOnly, optT, iso_tz_glob, hbZ, hbp, hbm, firstFull]

theorem dt_none_of_take4 {s : List Char} (h : takeDigits 4 s = none) :
    matchVariant .dt s = none := by
  simp [matchVariant, matchDateTime, iso_date, h, firstFull]

theorem time_none_T {r : List Char} (h : takeDigits 2 r = none) :
    matchVariant .time ('T' :: r) = none := by
  simp [matchVariant, matchTimeOnly, optT, iso_time, h,
    takeDigits_not_digit (show Char.isDigit 'T' = false by decide), firstFull]

theorem time_none_noT {c : Char} {r : List Char} (hc : c ≠ 'T')
    (h : takeDigits 2 (c :: r) = none) :
    matchVariant .time (c :: r) = none := by
  simp [matchVariant, matchTimeOnly, optT, hc, iso_time, h, firstFull]

/-- Claim C1 core: the first structural match is order-independent
between the dict order and the spec's precedence order. -/
theorem matchFirst_patternOrder_eq_specOrder (s : List Char) :
    matchFirst patternOrder s = matchFirst specOrder s := by
  show matchFirst [.dt_ext, .time_ext, .tz, .dt, .time] s =
    matchFirst [.dt_ext, .dt, .time_ext, .time, .tz] s
  simp only [matchFirst]
  cases h1 : matchVariant .dt_ext s with
  | some f => rfl
  | none =>
    cases h2 : matchVariant .dt s with
    | some f =>
      -- the basic date pattern starts with four digits
      cases h4 : takeDigits 4 s with
      | none => rw [dt_none_of_take4 h4] at h2; exact absurd h2 (by simp)
      | some p =>
        obtain ⟨t, r⟩ := p
        obtain ⟨hs, hlen, hdig⟩ := takeDigits_eq_some h4
        match t, hlen with
        | [a, b, c, d], _ =>
          simp only [List.all_cons, Bool.and_eq_true] at hdig
          subst hs
          simp only [List.cons_append, List.nil_append] at h2 ⊢
          rw [time_ext_none b (d :: r) hdig.1 hdig.2.2.1, tz_none_digit _ hdig.1]
    | none =>
      cases h3 : matchVariant .time_ext s with
      | some f => rfl
      | none =>
        cases h5 : matchVariant .time s with
        | some f =>
          match s with
          | [] => exact absurd h5 (by simp [matchVariant, matchTimeOnly, optT,
              iso_time, takeDigits, firstFull])
          | c :: r =>
            by_cases hcT : c = 'T'
            · subst hcT
              cases h6 : takeDigits 2 r with
              | none => rw [time_none_T h6] at h5; exact absurd h5 (by simp)
              | some p =>
                obtain ⟨t, r'⟩ := p
                obtain ⟨hs, hlen, hdig⟩ := takeDigits_eq_some h6
                match t, hlen with
                | [a, b], _ =>
                  simp only [List.all_cons, Bool.and_eq_true] at hdig
                  subst hs
                  simp only [List.cons_append, List.nil_append] at h5 ⊢
                  rw [tz_none_T_digit _ hdig.1]
            · cases h6 : takeDigits 2 (c :: r) with
              | none => rw [time_none_noT hcT h6] at h5; exact absurd h5 (by simp)
              | some p =>
                have hcd : c.isDigit = true := by
                  by_contra hcd
                  rw [takeDigits_not_digit (Bool.not_eq_true _ ▸ hcd) 1 r] at h6
                  exact absurd h6 (by simp)
                rw [tz_none_digit _ hcd]
        | none => rfl

/-- C1: the five grammar variants are tried in the CPython dict iteration
order, but for every input the first structurally matching variant (and
hence the parse result) is the same as under the precedence order of spec
section 4.1, because the variants that the dict order moves earlier match
disjoint sets of inputs. -/
theorem claim_C1 (s : List Char) (now : Ref) :
    parse s now = parseWith specOrder s now := by
  unfold parse parseWith
  rw [matchFirst_patternOrder_eq_specOrder]

/-- The Lean `patternOrder` is the iteration order of the CPython 2.7
hash table holding `PATTERNS`. -/
theorem patternOrder_is_dict_order :
    py2DictOrder patternKeys = patternOrder.map variantName := by decide

/-- Regression: the embedding reproduces all 23 doctest examples of
`parse` (reference 1950-02-27 14:17:22.000110; the doctests print local
results with the offsets +01:00/+02:00 of the machine they were written
on, which the `localTz` marker abstracts). -/
theorem parse_doctests :
    (["1997", "199707", "1997-07", "19970731", "1997-07-31", "1997206",
      "1997-206", "2004W453", "2004-W45-3", "19970716T1920",
      "1997-07-16T19:20", "19970716T192030", "1997-07-16T19:20:30",
      "19970716T192030423", "1997-07-16T19:20:30,4", "19970716T1920+0100",
      "1997-07-16T19:20+01:00", "T19+0100", "T1920+0100", "T192030+0100",
      "T1920304+0100", "T19:20:30,4+01:00",
      "T19:20:30Z"].map (fun s => parse s.toList ref0)) =
    ([.ok ⟨1997, 1, 1, 0, 0, 0, 0, .localTz⟩,
      .ok ⟨1997, 7, 1, 0, 0, 0, 0, .localTz⟩,
      .ok ⟨1997, 7, 1, 0, 0, 0, 0, .localTz⟩,
      .ok ⟨1997, 7, 31, 0, 0, 0, 0, .localTz⟩,
      .ok ⟨1997, 7, 31, 0, 0, 0, 0, .localTz⟩,
      .ok ⟨1997, 7, 25, 0, 0, 0, 0, .localTz⟩,
      .ok ⟨1997, 7, 25, 0, 0, 0, 0, .localTz⟩,
      .ok ⟨2004, 11, 3, 0, 0, 0, 0, .localTz⟩,
      .ok ⟨2004, 11, 3, 0, 0, 0, 0, .localTz⟩,
      .ok ⟨1997, 7, 16, 19, 20, 0, 0, .localTz⟩,
      .ok ⟨1997, 7, 16, 19, 20, 0, 0, .localTz⟩,
      .ok ⟨1997, 7, 16, 19, 20, 30, 0, .localTz⟩,
      .ok ⟨1997, 7, 16, 19, 20, 30, 0, .localTz⟩,
      .ok ⟨1997, 7, 16, 19, 20, 30, 423000, .localTz⟩,
      .ok ⟨1997, 7, 16, 19, 20, 30, 400000, .localTz⟩,
      .ok ⟨1997, 7, 16, 19, 20, 0, 0, .fixed 60 "+0100".toList⟩,
      .ok ⟨1997, 7, 16, 19, 20, 0, 0, .fixed 60 "+01:00".toList⟩,
      .ok ⟨1950, 2, 27, 19, 0, 0, 0, .fixed 60 "+0100".toList⟩,
      .ok ⟨1950, 2, 27, 19, 20, 0, 0, .fixed 60 "+0100".toList⟩,
      .ok ⟨1950, 2, 27, 19, 20, 30, 0, .fixed 60 "+0100".toList⟩,
      .ok ⟨1950, 2, 27, 19, 20, 30, 400000, .fixed 60 "+0100".toList⟩,
      .ok ⟨1950, 2, 27, 19, 20, 30, 400000, .fixed 60 "+01:00".toList⟩,
      .ok ⟨1950, 2, 27, 19, 20, 30, 0, .fixed 0 "Z".toList⟩] :
      List (Except Err Composed)) := by decide

/-! ## C3: the source's week-date composition is not ISO week-date -/

/-- C3 (code bug): the input `2001-W02-1` structurally matches the
extended week-date form, but the source composes it through strptime's
`%W` convention (weeks counted from the first Monday of the year, with
the week token decremented by one), which yields 2001-01-01; the ISO week
date (2001, W02, Monday) required by the claim denotes 2001-01-08, as
both the spec-side ISO computation and the source's own parse of
`2001-01-08` show.  The two conventions agree only when January 1 falls
on Tuesday–Thursday (so the doctests' 2004 example hides the bug). -/
theorem claim_C3_code_divergence :
    parse "2001-W02-1".toList ref0 = .ok ⟨2001, 1, 1, 0, 0, 0, 0, .localTz⟩ ∧
    specIsoWeekDateYMD 2001 2 1 = (2001, 1, 8) ∧
    parse "2001-01-08".toList ref0 = .ok ⟨2001, 1, 8, 0, 0, 0, 0, .localTz⟩ := by
  refine ⟨by decide, by decide, by decide⟩

/-! ## C4: the tz-only variant leaks its hour/min captures into the time -/

/-- C4 (code bug): `iso_tz_glob` names its offset groups `direction`,
`hour` and `min`; when the tz-only variant matches, `parse`'s generic
`m.get('hour')` / `m.get('min')` reads pick up the offset digits as the
time of day, so `parse("+05:30", ref)` composes 05:30:00 (not the
00:00:00 the claim states) at the reference's calendar date, with the
fixed offset +05:30 (330 minutes). -/
theorem claim_C4_code_divergence :
    parse "+05:30".toList ref0 =
      .ok ⟨1950, 2, 27, 5, 30, 0, 0, .fixed 330 "+05:30".toList⟩ := by decide

/-! ## Counterexamples for C2, C5, C6, C8, C10 -/

/-- C2 counterexample: `1997-13` structurally matches the extended
date pattern (month token `13`), and composition then raises a strptime
`ValueError` (the `%m` directive rejects 13) — a third failure kind that
is neither `Unparsable` (which carries the input) nor `InvalidTimezone`
(which carries a fragment). -/
theorem claim_C2_counterexample :
    parse "1997-13".toList ref0 = .error .valueError ∧
    (matchVariant .dt_ext "1997-13".toList).isSome = true := by
  refine ⟨by decide, by decide⟩

/-- C5 counterexample: `0000` is a four-digit year string, but
composition raises (`date(0, 1, 1)` is out of range for the calendar),
so `parse` does not return January 1 of year 0. -/
theorem claim_C5_counterexample :
    parse "0000".toList ref0 = .error .valueError := by decide

/-- C6 counterexample: for `2004W45` (week token, no weekday) strptime
never uses `%W` without `%w`, so the week number is ignored and the
composed date is 2004-01-01 — not the Monday of ISO week 45 of 2004,
which is 2004-11-01. -/
theorem claim_C6_counterexample :
    parse "2004W45".toList ref0 = .ok ⟨2004, 1, 1, 0, 0, 0, 0, .localTz⟩ ∧
    specIsoWeekDateYMD 2004 45 1 = (2004, 11, 1) := by
  refine ⟨by decide, by decide⟩

/-- C8 counterexample: for the 31-digit sub-second token
`4999999999999999999999999999995` the exact scaled value is
499999.99…95 microseconds, whose integer part is 499999; but the
`Decimal` multiplication rounds to 28 significant digits (half-even)
before `int()` truncates, and the composed timestamp carries 500000
microseconds. -/
theorem claim_C8_counterexample :
    parse "T00:00:00.4999999999999999999999999999995Z".toList ref0 =
      .ok ⟨1950, 2, 27, 0, 0, 0, 500000, .fixed 0 "Z".toList⟩ ∧
    digitsToNat "4999999999999999999999999999995".toList * 1000000 / 10 ^ 31
      = 499999 := by
  refine ⟨by decide, by decide⟩

/-- C10 counterexample: the empty input does match the tz-only variant,
but for a reference timestamp with a three-digit year (here 0999-02-27,
a perfectly valid `datetime`) the rebuilt `%Y` token `str(999)` fails
the four-digit `%Y` grammar and `parse` raises a `ValueError` instead of
returning the reference's calendar date. -/
theorem claim_C10_counterexample :
    parse "".toList ⟨999, 2, 27, 14, 17, 22, 110⟩ = .error .valueError := by
  decide

/-! ## `str(n)` (the `natDigits` decimal representation) -/

theorem natDigitsAux_congr (n : Nat) : ∀ f1 f2, n < f1 → n < f2 →
    natDigitsAux f1 n = natDigitsAux f2 n := by
  induction n using Nat.strong_induction_on with
  | _ n ih =>
    intro f1 f2 h1 h2
    match f1, f2 with
    | k1 + 1, k2 + 1 =>
      by_cases h : n < 10
      · simp [natDigitsAux, h]
      · simp only [natDigitsAux, h, if_false]
        rw [ih (n / 10) (by omega) k1 k2 (by omega) (by omega)]

theorem natDigits_eq (n : Nat) :
    natDigits n =
      if n < 10 then [digitChar n]
      else natDigits (n / 10) ++ [digitChar (n % 10)] := by
  by_cases h : n < 10
  · simp [natDigits, natDigitsAux, h]
  · show natDigitsAux (n + 1) n = _
    simp only [natDigitsAux, h, if_false]
    rw [natDigitsAux_congr (n / 10) n (n / 10 + 1) (by omega) (by omega)]
    rfl

theorem digitsToNat_append_single (xs : List Char) (c : Char) :
    digitsToNat (xs ++ [c]) = 10 * digitsToNat xs + (c.toNat - 48) := by
  simp [digitsToNat, List.foldl_append]
  omega

theorem digitsToNat_natDigits (n : Nat) : digitsToNat (natDigits n) = n := by
  induction n using Nat.strong_induction_on with
  | _ n ih =>
    rw [natDigits_eq]
    by_cases h : n < 10
    · simp [h, digitsToNat, digitChar_toNat (by omega : n ≤ 9)]
    · simp only [h, if_false, digitsToNat_append_single, ih (n / 10) (by omega),
        digitChar_toNat (by omega : n % 10 ≤ 9)]
      omega

theorem natDigits_all_digits (n : Nat) : (natDigits n).all Char.isDigit = true := by
  induction n using Nat.strong_induction_on with
  | _ n ih =>
    rw [natDigits_eq]
    by_cases h : n < 10
    · simp [h, digitChar_isDigit (by omega : n ≤ 9)]
    · simp [h, ih (n / 10) (by omega), List.all_append,
        digitChar_isDigit (by omega : n % 10 ≤ 9)]

theorem natDigits_len_le : ∀ k n, 1 ≤ k → n < 10 ^ k →
    (natDigits n).length ≤ k := by
  intro k n
  induction n using Nat.strong_induction_on generalizing k with
  | _ n ih =>
    intro hk hn
    rw [natDigits_eq]
    by_cases h : n < 10
    · rw [if_pos h]
      simpa using hk
    · have hk2 : 2 ≤ k := by
        by_contra hc
        have hk1 : k = 1 := by omega
        rw [hk1] at hn
        omega
      have hpow : 10 ^ k = 10 ^ (k - 1) * 10 := by
        rw [← pow_succ]
        congr 1
        omega
      have hn' : n < 10 ^ (k - 1) * 10 := hpow ▸ hn
      have hlen : (natDigits (n / 10)).length ≤ k - 1 := by
        refine ih (n / 10) (by omega) (k - 1) (by omega) ?_
        rw [Nat.div_lt_iff_lt_mul (by norm_num : (0 : Nat) < 10)]
        exact hn'
      simp only [h, if_false, List.length_append, List.length_cons,
        List.length_nil]
      omega

theorem natDigits_lt10 {n : Nat} (h : n < 10) : natDigits n = [digitChar n] := by
  rw [natDigits_eq, if_pos h]

theorem natDigits_two {n : Nat} (h1 : 10 ≤ n) (h2 : n ≤ 99) :
    natDigits n = [digitChar (n / 10), digitChar (n % 10)] := by
  rw [natDigits_eq, if_neg (by omega), natDigits_lt10 (by omega)]
  rfl

theorem natDigits_four {n : Nat} (h1 : 1000 ≤ n) (h2 : n ≤ 9999) :
    natDigits n = digits4 n := by
  have e100 : n / 10 / 10 = n / 100 := by omega
  rw [natDigits_eq, if_neg (by omega),
    natDigits_eq, if_neg (by omega), e100,
    natDigits_eq, if_neg (by omega)]
  have e1000 : n / 100 / 10 = n / 1000 := by omega
  rw [e1000, natDigits_lt10 (by omega)]
  have e1 : n / 1000 % 10 = n / 1000 := Nat.mod_eq_of_lt (by omega)
  simp [digits4, e1]

/-! ## The strptime directives on reconstructed reference tokens -/

theorem dirY_natDigits {y : Nat} (h1 : 1000 ≤ y) (h2 : y ≤ 9999) :
    dirY (natDigits y) = some y := by
  rw [natDigits_four h1 h2]
  rw [dirY, if_pos ⟨rfl, digits4_all y⟩, digitsToNat_digits4 h2]

theorem dirY_token {ds : List Char} (hlen : ds.length = 4)
    (hall : ds.all Char.isDigit = true) : dirY ds = some (digitsToNat ds) := by
  rw [dirY, if_pos ⟨hlen, hall⟩]

theorem digitsToNat_single {n : Nat} (h : n ≤ 9) :
    digitsToNat [digitChar n] = n := by
  simp [digitsToNat, digitChar_toNat h]

theorem digitsToNat_pair {a b : Nat} (ha : a ≤ 9) (hb : b ≤ 9) :
    digitsToNat [digitChar a, digitChar b] = 10 * a + b := by
  simp [digitsToNat, digitChar_toNat ha, digitChar_toNat hb]
  omega

theorem dirm_natDigits {m : Nat} (h1 : 1 ≤ m) (h2 : m ≤ 12) :
    dirm (natDigits m) = some m := by
  by_cases h : m < 10
  · rw [natDigits_lt10 h, dirm, digitsToNat_single (by omega),
      if_pos ⟨by simp [digitChar_isDigit (show m ≤ 9 by omega)], h1,
        Or.inl ⟨rfl, by omega⟩⟩]
  · have hv : digitsToNat [digitChar (m / 10), digitChar (m % 10)] = m := by
      rw [digitsToNat_pair (by omega) (by omega)]
      omega
    rw [natDigits_two (by omega) (by omega), dirm, hv,
      if_pos ⟨by simp [digitChar_isDigit (show m / 10 ≤ 9 by omega),
          digitChar_isDigit (show m % 10 ≤ 9 by omega)], h1,
        Or.inr ⟨rfl, by omega⟩⟩]

theorem dird_natDigits {d : Nat} (h1 : 1 ≤ d) (h2 : d ≤ 31) :
    dird (natDigits d) = some d := by
  by_cases h : d < 10
  · rw [natDigits_lt10 h, dird, digitsToNat_single (by omega),
      if_pos ⟨by simp [digitChar_isDigit (show d ≤ 9 by omega)], h1,
        Or.inl ⟨rfl, by omega⟩⟩]
  · have hv : digitsToNat [digitChar (d / 10), digitChar (d % 10)] = d := by
      rw [digitsToNat_pair (by omega) (by omega)]
      omega
    rw [natDigits_two (by omega) (by omega), dird, hv,
      if_pos ⟨by simp [digitChar_isDigit (show d / 10 ≤ 9 by omega),
          digitChar_isDigit (show d % 10 ≤ 9 by omega)], h1,
        Or.inr ⟨rfl, by omega⟩⟩]

theorem daysInMonth_le_31 (y m : Nat) (h1 : 1 ≤ m) (h2 : m ≤ 12) :
    daysInMonth y m ≤ 31 := by
  interval_cases m <;> simp only [daysInMonth] <;> norm_num <;> split_ifs <;> omega

theorem daysInMonth_pos (y m : Nat) (h1 : 1 ≤ m) (h2 : m ≤ 12) :
    1 ≤ daysInMonth y m := by
  interval_cases m <;> simp only [daysInMonth] <;> norm_num <;> split_ifs <;> omega

theorem toNat_le_of_digit {c : Char} (h : c.isDigit = true) :
    48 ≤ c.toNat ∧ c.toNat ≤ 57 := by
  simp [Char.isDigit] at h
  exact h

theorem digitsToNat_lt {ds : List Char} (hall : ds.all Char.isDigit = true) :
    digitsToNat ds < 10 ^ ds.length := by
  suffices h : ∀ (t : List Char) (a : Nat), t.all Char.isDigit = true →
      List.foldl (fun x c => x * 10 + (c.toNat - 48)) a t <
        (a + 1) * 10 ^ t.length by
    have := h ds 0 hall
    simpa [digitsToNat] using this
  intro t
  induction t with
  | nil => intro a _; simpa using Nat.lt_succ_self a
  | cons c t ih =>
    intro a ht
    simp only [List.all_cons, Bool.and_eq_true] at ht
    have hc := (toNat_le_of_digit ht.1).2
    have h1 := ih (a * 10 + (c.toNat - 48)) ht.2
    have h2 : (a * 10 + (c.toNat - 48) + 1) * 10 ^ t.length ≤
        (a + 1) * 10 ^ (c :: t).length := by
      simp only [List.length_cons, pow_succ]
      calc (a * 10 + (c.toNat - 48) + 1) * 10 ^ t.length
          ≤ ((a + 1) * 10) * 10 ^ t.length := by
            have : a * 10 + (c.toNat - 48) + 1 ≤ (a + 1) * 10 := by omega
            exact Nat.mul_le_mul_right _ this
        _ = (a + 1) * (10 ^ t.length * 10) := by ring
    exact lt_of_lt_of_le h1 h2

/-! ## Positive evaluations of the pattern matchers -/

theorem firstFull_cons_empty {α : Type} (f : α) (l : List (α × List Char)) :
    firstFull ((f, []) :: l) = some f := by
  simp [firstFull, List.find?]

theorem takeDigits_whole (t : List Char) (hlen : t.length = 4)
    (hall : t.all Char.isDigit = true) : takeDigits 4 t = some (t, []) := by
  have := takeDigits_exact t [] hall
  rw [List.append_nil, hlen] at this
  exact this

/-- The extended date pattern on a bare 4-digit token: a year-only match. -/
theorem dt_ext_year {Y : List Char} (hlen : Y.length = 4)
    (hall : Y.all Char.isDigit = true) :
    matchVariant .dt_ext Y =
      some ⟨true, some Y, none, none, none, none, none, none, none, none,
        none, none⟩ := by
  match Y, hlen with
  | [a, b, c, d], _ =>
    simp only [List.all_cons, Bool.and_eq_true, List.all_nil] at hall
    simp [matchVariant, matchDateTime, iso_date_extended, takeDigits,
      hall.1, hall.2.1, hall.2.2.1, hall.2.2.2.1, firstFull, List.find?,
      fieldsOfDT]

/-- `matchFirst` over the dict order when the first (extended date-time)
pattern matches. -/
theorem matchFirst_of_dt_ext {s : List Char} {f : Fields}
    (h : matchVariant .dt_ext s = some f) :
    matchFirst patternOrder s = some f := by
  simp [patternOrder, matchFirst, h]

/-- `matchFirst` over the dict order when only the basic date-time
pattern matches among the first four. -/
theorem matchFirst_of_dt {s : List Char} {f : Fields}
    (h1 : matchVariant .dt_ext s = none)
    (h2 : matchVariant .time_ext s = none)
    (h3 : matchVariant .tz s = none)
    (h4 : matchVariant .dt s = some f) :
    matchFirst patternOrder s = some f := by
  simp [patternOrder, matchFirst, h1, h2, h3, h4]

theorem takeDigits_whole2 (t : List Char) (hlen : t.length = 2)
    (hall : t.all Char.isDigit = true) : takeDigits 2 t = some (t, []) := by
  have := takeDigits_exact t [] hall
  rw [List.append_nil, hlen] at this
  exact this

theorem takeDigits_whole3 (t : List Char) (hlen : t.length = 3)
    (hall : t.all Char.isDigit = true) : takeDigits 3 t = some (t, []) := by
  have := takeDigits_exact t [] hall
  rw [List.append_nil, hlen] at this
  exact this

/-- The extended date pattern never matches when a 4-digit year is
followed by anything but `-` or `T`. -/
theorem dt_ext_none_after4 {Y : List Char} {c : Char} (r : List Char)
    (hlen : Y.length = 4) (hall : Y.all Char.isDigit = true)
    (h1 : c ≠ '-') (h2 : c ≠ 'T') :
    matchVariant .dt_ext (Y ++ c :: r) = none := by
  have h4 := takeDigits_exact Y (c :: r) hall
  rw [hlen] at h4
  simp [matchVariant, matchDateTime, iso_date_extended, h4, h1, h2,
    firstFull, List.find?]

/-- The extended date-time pattern never matches a string whose head is
not a digit and not `T`...  (here: head not a digit kills the year). -/
theorem dt_ext_none_head {c : Char} (r : List Char) (hc : c.isDigit = false) :
    matchVariant .dt_ext (c :: r) = none := by
  simp [matchVariant, matchDateTime, iso_date_extended,
    takeDigits_not_digit hc, firstFull]

theorem time_ext_none_4digits {Y : List Char} (r : List Char)
    (hlen : Y.length = 4) (hall : Y.all Char.isDigit = true) :
    matchVariant .time_ext (Y ++ r) = none := by
  match Y, hlen with
  | [a, b, c, d], _ =>
    simp only [List.all_cons, Bool.and_eq_true, List.all_nil] at hall
    simp only [List.cons_append, List.nil_append]
    exact time_ext_none b (d :: r) hall.1 hall.2.2.1

theorem tz_none_digits {Y : List Char} (r : List Char) (hne : Y ≠ [])
    (hall : Y.all Char.isDigit = true) :
    matchVariant .tz (Y ++ r) = none := by
  match Y, hne with
  | a :: Y', _ =>
    simp only [List.all_cons, Bool.and_eq_true] at hall
    simp only [List.cons_append]
    exact tz_none_digit _ hall.1

/-- The extended date pattern on `YYYY-MM-DD`. -/
theorem dt_ext_ymd {Y MO DA : List Char}
    (hY : Y.length = 4) (hYa : Y.all Char.isDigit = true)
    (hM : MO.length = 2) (hMa : MO.all Char.isDigit = true)
    (hD : DA.length = 2) (hDa : DA.all Char.isDigit = true) :
    matchVariant .dt_ext (Y ++ '-' :: (MO ++ '-' :: DA)) =
      some ⟨true, some Y, some MO, some DA, none, none, none, none, none,
        none, none, none⟩ := by
  have h4 := takeDigits_exact Y ('-' :: (MO ++ '-' :: DA)) hYa
  rw [hY] at h4
  have h2 := takeDigits_exact MO ('-' :: DA) hMa
  rw [hM] at h2
  have h2d := takeDigits_whole2 DA hD hDa
  simp [matchVariant, matchDateTime, iso_date_extended, h4, h2, h2d,
    firstFull, List.find?, fieldsOfDT]

/-- The basic date pattern on `YYYYMMDD`. -/
theorem dt_ymd {Y MO DA : List Char}
    (hY : Y.length = 4) (hYa : Y.all Char.isDigit = true)
    (hM : MO.length = 2) (hMa : MO.all Char.isDigit = true)
    (hD : DA.length = 2) (hDa : DA.all Char.isDigit = true) :
    matchVariant .dt (Y ++ (MO ++ DA)) =
      some ⟨true, some Y, some MO, some DA, none, none, none, none, none,
        none, none, none⟩ := by
  have h4 := takeDigits_exact Y (MO ++ DA) hYa
  rw [hY] at h4
  have h2 := takeDigits_exact MO DA hMa
  rw [hM] at h2
  have h2d := takeDigits_whole2 DA hD hDa
  simp [matchVariant, matchDateTime, iso_date, h4, h2, h2d,
    firstFull, List.find?, fieldsOfDT]

/-- The extended date pattern on `YYYY-Www` (week, no weekday). -/
theorem dt_ext_week {Y W : List Char}
    (hY : Y.length = 4) (hYa : Y.all Char.isDigit = true)
    (hW : W.length = 2) (hWa : W.all Char.isDigit = true) :
    matchVariant .dt_ext (Y ++ '-' :: 'W' :: W) =
      some ⟨true, some Y, none, none, none, some W, none, none, none,
        none, none, none⟩ := by
  have h4 := takeDigits_exact Y ('-' :: 'W' :: W) hYa
  rw [hY] at h4
  have h2w := takeDigits_whole2 W hW hWa
  simp [matchVariant, matchDateTime, iso_date_extended, h4, h2w,
    takeDigits_not_digit (show ('W' : Char).isDigit = false by decide),
    firstFull, List.find?, fieldsOfDT, takeDigits]

/-- The basic date pattern on `YYYYWww` (week, no weekday). -/
theorem dt_week {Y W : List Char}
    (hY : Y.length = 4) (hYa : Y.all Char.isDigit = true)
    (hW : W.length = 2) (hWa : W.all Char.isDigit = true) :
    matchVariant .dt (Y ++ 'W' :: W) =
      some ⟨true, some Y, none, none, none, some W, none, none, none,
        none, none, none⟩ := by
  have h4 := takeDigits_exact Y ('W' :: W) hYa
  rw [hY] at h4
  have h2w := takeDigits_whole2 W hW hWa
  simp [matchVariant, matchDateTime, iso_date, h4, h2w,
    takeDigits_not_digit (show ('W' : Char).isDigit = false by decide),
    firstFull, List.find?, fieldsOfDT, takeDigits]

/-- The extended date pattern on `YYYY-DDD` (ordinal day). -/
theorem dt_ext_ord {Y J : List Char}
    (hY : Y.length = 4) (hYa : Y.all Char.isDigit = true)
    (hJ : J.length = 3) (hJa : J.all Char.isDigit = true) :
    matchVariant .dt_ext (Y ++ '-' :: J) =
      some ⟨true, some Y, none, none, some J, none, none, none, none,
        none, none, none⟩ := by
  have h4 := takeDigits_exact Y ('-' :: J) hYa
  rw [hY] at h4
  have h3j := takeDigits_whole3 J hJ hJa
  match J, hJ with
  | [j1, j2, j3], _ =>
    simp only [List.all_cons, Bool.and_eq_true, List.all_nil] at hJa
    have h2 : takeDigits 2 [j1, j2, j3] = some ([j1, j2], [j3]) := by
      simp [takeDigits, hJa.1, hJa.2.1]
    have hj3T : j3 ≠ 'T' := ne_of_digit hJa.2.2.1 (by decide)
    have hj3d : j3 ≠ '-' := ne_of_digit hJa.2.2.1 (by decide)
    have hj1W : j1 ≠ 'W' := ne_of_digit hJa.1 (by decide)
    have hone : takeDigits 2 [j3] = none := by
      cases hd : j3.isDigit <;> simp [takeDigits, hd]
    simp [matchVariant, matchDateTime, iso_date_extended, h4, h2, h3j,
      hone, hj3T, hj3d, hj1W, firstFull, List.find?, fieldsOfDT,
      -List.find?_append]

/-- The basic date pattern on `YYYYDDD` (ordinal day). -/
theorem dt_ord {Y J : List Char}
    (hY : Y.length = 4) (hYa : Y.all Char.isDigit = true)
    (hJ : J.length = 3) (hJa : J.all Char.isDigit = true) :
    matchVariant .dt (Y ++ J) =
      some ⟨true, some Y, none, none, some J, none, none, none, none,
        none, none, none⟩ := by
  have h4 := takeDigits_exact Y J hYa
  rw [hY] at h4
  have h3j := takeDigits_whole3 J hJ hJa
  match J, hJ with
  | [j1, j2, j3], _ =>
    simp only [List.all_cons, Bool.and_eq_true, List.all_nil] at hJa
    have h2 : takeDigits 2 [j1, j2, j3] = some ([j1, j2], [j3]) := by
      simp [takeDigits, hJa.1, hJa.2.1]
    have hj3T : j3 ≠ 'T' := ne_of_digit hJa.2.2.1 (by decide)
    have hj1W : j1 ≠ 'W' := ne_of_digit hJa.1 (by decide)
    have hone : takeDigits 2 [j3] = none := by
      cases hd : j3.isDigit <;> simp [takeDigits, hd]
    simp [matchVariant, matchDateTime, iso_date, h4, h2, h3j, hone, hj3T,
      hj1W, firstFull, List.find?, fieldsOfDT, -List.find?_append]

/-! ## Symbolic evaluations of the composition stage -/

theorem compose_ymd {Y MO DA : List Char} {y mo d : Nat} (now : Ref)
    (hY : dirY Y = some y) (hMO : dirm MO = some mo) (hDA : dird DA = some d)
    (hy1 : 1 ≤ y) (hy2 : y ≤ 9999) (hd2 : d ≤ daysInMonth y mo) :
    compose ⟨true, some Y, some MO, some DA, none, none, none, none, none,
      none, none, none⟩ now = .ok ⟨y, mo, d, 0, 0, 0, 0, .localTz⟩ := by
  unfold compose
  simp only [Option.elim, hY, hMO, hDA]
  rw [if_pos ⟨hy1, hy2, hd2⟩, if_pos (by omega : (0 : Nat) ≤ 59)]
  rfl

theorem compose_year {Y : List Char} {y : Nat} (now : Ref)
    (hY : dirY Y = some y) (hy1 : 1 ≤ y) (hy2 : y ≤ 9999) :
    compose ⟨true, some Y, none, none, none, none, none, none, none, none,
      none, none⟩ now = .ok ⟨y, 1, 1, 0, 0, 0, 0, .localTz⟩ := by
  unfold compose
  simp only [Option.elim, hY, if_true]
  rw [if_pos ⟨hy1, hy2, by simp [daysInMonth]⟩, if_pos (by omega : (0 : Nat) ≤ 59)]
  rfl

theorem compose_week {Y W : List Char} {y w : Nat} (now : Ref)
    (hY : dirY Y = some y) (hWv : digitsToNat W = w)
    (hy1 : 1 ≤ y) (hy2 : y ≤ 9999) (hw1 : 1 ≤ w) (hw2 : w ≤ 54) :
    compose ⟨true, some Y, none, none, none, some W, none, none, none,
      none, none, none⟩ now = .ok ⟨y, 1, 1, 0, 0, 0, 0, .localTz⟩ := by
  unfold compose
  simp only [Option.elim, hY, hWv, if_true]
  rw [dirW, if_pos (by omega : 0 ≤ (w : Int) - 1 ∧ (w : Int) - 1 ≤ 53)]
  simp only [Option.map_some']
  rw [if_pos ⟨hy1, hy2, by simp [daysInMonth]⟩,
    if_pos (by omega : (0 : Nat) ≤ 59)]
  rfl

theorem compose_ref (now : Ref) (hv : now.Valid) (hy : 1000 ≤ now.year) :
    compose ⟨false, none, none, none, none, none, none, none, none, none,
      none, none⟩ now = .ok ⟨now.year, now.month, now.day, 0, 0, 0, 0,
        .localTz⟩ := by
  obtain ⟨h1, h2, h3, h4, h5, h6, _⟩ := hv
  unfold compose
  simp only [Option.elim, if_false, Bool.false_eq_true, ite_false,
    dirY_natDigits hy h2, dirm_natDigits h3 h4, dird_natDigits h5
      (le_trans h6 (daysInMonth_le_31 _ _ h3 h4))]
  rw [if_pos ⟨by omega, h2, h6⟩, if_pos (by omega : (0 : Nat) ≤ 59)]
  rfl

/-- The extended date pattern never matches a 4-digit year followed by a
remainder that starts with anything but `-` or `T`. -/
theorem dt_ext_none_append {Y r : List Char} (hlen : Y.length = 4)
    (hall : Y.all Char.isDigit = true)
    (hr : match r with | [] => False | c :: _ => c ≠ '-' ∧ c ≠ 'T') :
    matchVariant .dt_ext (Y ++ r) = none := by
  match r, hr with
  | c :: r', hr => exact dt_ext_none_after4 r' hlen hall hr.1 hr.2

/-! ## C5: four-digit year inputs -/

/-- C5 (amended): every four-digit year string with nonzero value parses
to January 1 of that year at midnight with zero microseconds, carrying
the local timezone; its offset is the ambient rule's offset evaluated at
the composed date (January 1 of that year).  The year string `0000` is
excluded: `date(0, 1, 1)` raises (see `claim_C5_counterexample`). -/
theorem claim_C5 (ds : List Char) (now : Ref) (rule : AmbientRule)
    (hlen : ds.length = 4) (hall : ds.all Char.isDigit = true)
    (hpos : 1 ≤ digitsToNat ds) :
    parse ds now = .ok ⟨digitsToNat ds, 1, 1, 0, 0, 0, 0, .localTz⟩ ∧
    utcoffsetMinutes rule ⟨digitsToNat ds, 1, 1, 0, 0, 0, 0, .localTz⟩ =
      (if rule.isdst (digitsToNat ds) 1 1 0 0 0 then rule.dst
       else rule.std) := by
  have hlt : digitsToNat ds ≤ 9999 := by
    have := digitsToNat_lt hall
    rw [hlen] at this
    omega
  refine ⟨?_, rfl⟩
  unfold parse parseWith
  rw [matchFirst_of_dt_ext (dt_ext_year hlen hall)]
  exact compose_year now (dirY_token hlen hall) hpos hlt

/-- Witness for C5 at the doctest input `1997`. -/
theorem claim_C5_witness :
    parse "1997".toList ref0 = .ok ⟨1997, 1, 1, 0, 0, 0, 0, .localTz⟩ := by
  have h := claim_C5 "1997".toList ref0 ⟨60, 120, fun _ _ _ _ _ _ => false⟩
    (by decide) (by decide) (by decide)
  have : digitsToNat "1997".toList = 1997 := by decide
  rw [this] at h
  exact h.1

/-! ## C6 (amended), C7, C10 (amended) -/

theorem digits2_len (n : Nat) : (digits2 n).length = 2 := rfl

theorem digits3_len (n : Nat) : (digits3 n).length = 3 := rfl

theorem digits4_len (n : Nat) : (digits4 n).length = 4 := rfl

theorem dirY_digits4 {y : Nat} (h : y ≤ 9999) : dirY (digits4 y) = some y := by
  rw [dirY_token (digits4_len y) (digits4_all y), digitsToNat_digits4 h]

theorem dirm_digits2 {mo : Nat} (h1 : 1 ≤ mo) (h2 : mo ≤ 12) :
    dirm (digits2 mo) = some mo := by
  have hv := digitsToNat_digits2 (show mo ≤ 99 by omega)
  rw [dirm, hv, if_pos ⟨digits2_all mo, h1, Or.inr ⟨rfl, by omega⟩⟩]

theorem dird_digits2 {d : Nat} (h1 : 1 ≤ d) (h2 : d ≤ 31) :
    dird (digits2 d) = some d := by
  have hv := digitsToNat_digits2 (show d ≤ 99 by omega)
  rw [dird, hv, if_pos ⟨digits2_all d, h1, Or.inr ⟨rfl, by omega⟩⟩]

/-- C6 (amended): a week token without a weekday composes to January 1 of
the year (the week number passes the `%W` grammar but is never used,
since strptime requires both `%W` and `%w` for the week computation), in
both the basic and the extended spelling. -/
theorem claim_C6 (y w : Nat) (now : Ref) (hy1 : 1 ≤ y) (hy2 : y ≤ 9999)
    (hw1 : 1 ≤ w) (hw2 : w ≤ 54) :
    parse (digits4 y ++ 'W' :: digits2 w) now =
      .ok ⟨y, 1, 1, 0, 0, 0, 0, .localTz⟩ ∧
    parse (digits4 y ++ '-' :: 'W' :: digits2 w) now =
      .ok ⟨y, 1, 1, 0, 0, 0, 0, .localTz⟩ := by
  have hWv := digitsToNat_digits2 (show w ≤ 99 by omega)
  constructor
  · unfold parse parseWith
    rw [matchFirst_of_dt
      (dt_ext_none_after4 _ (digits4_len y) (digits4_all y) (by decide) (by decide))
      (time_ext_none_4digits _ (digits4_len y) (digits4_all y))
      (tz_none_digits _ (by simp [digits4]) (digits4_all y))
      (dt_week (digits4_len y) (digits4_all y) (digits2_len w) (digits2_all w))]
    exact compose_week now (dirY_digits4 hy2) hWv hy1 hy2 hw1 hw2
  · unfold parse parseWith
    rw [matchFirst_of_dt_ext (dt_ext_week (digits4_len y) (digits4_all y)
      (digits2_len w) (digits2_all w))]
    exact compose_week now (dirY_digits4 hy2) hWv hy1 hy2 hw1 hw2

/-- Witness for C6: `2004W45` and `2004-W45` compose to 2004-01-01. -/
theorem claim_C6_witness :
    parse "2004W45".toList ref0 = .ok ⟨2004, 1, 1, 0, 0, 0, 0, .localTz⟩ ∧
    parse "2004-W45".toList ref0 = .ok ⟨2004, 1, 1, 0, 0, 0, 0, .localTz⟩ := by
  have h := claim_C6 2004 45 ref0 (by decide) (by decide) (by decide) (by decide)
  exact ⟨h.1, h.2⟩

/-- C7: for every valid calendar date, the extended form `YYYY-MM-DD` and
the basic form `YYYYMMDD` parse to identical composed timestamps (the
date at midnight in the ambient local zone). -/
theorem claim_C7 (y mo d : Nat) (now : Ref) (hy1 : 1 ≤ y) (hy2 : y ≤ 9999)
    (hm1 : 1 ≤ mo) (hm2 : mo ≤ 12) (hd1 : 1 ≤ d)
    (hd2 : d ≤ daysInMonth y mo) :
    parse (digits4 y ++ '-' :: (digits2 mo ++ '-' :: digits2 d)) now =
      .ok ⟨y, mo, d, 0, 0, 0, 0, .localTz⟩ ∧
    parse (digits4 y ++ (digits2 mo ++ digits2 d)) now =
      .ok ⟨y, mo, d, 0, 0, 0, 0, .localTz⟩ := by
  have hd31 : d ≤ 31 := le_trans hd2 (daysInMonth_le_31 _ _ hm1 hm2)
  have hcmp := compose_ymd now (dirY_digits4 hy2) (dirm_digits2 hm1 hm2)
    (dird_digits2 hd1 hd31) hy1 hy2 hd2
  constructor
  · unfold parse parseWith
    rw [matchFirst_of_dt_ext (dt_ext_ymd (digits4_len y) (digits4_all y)
      (digits2_len mo) (digits2_all mo) (digits2_len d) (digits2_all d))]
    exact hcmp
  · unfold parse parseWith
    rw [matchFirst_of_dt
      (dt_ext_none_append (digits4_len y) (digits4_all y) (by
        simp only [digits2, List.cons_append]
        exact ⟨ne_of_digit (digitChar_isDigit (by omega)) (by decide),
          ne_of_digit (digitChar_isDigit (by omega)) (by decide)⟩))
      (time_ext_none_4digits _ (digits4_len y) (digits4_all y))
      (tz_none_digits _ (by simp [digits4]) (digits4_all y))
      (dt_ymd (digits4_len y) (digits4_all y) (digits2_len mo) (digits2_all mo) (digits2_len d) (digits2_all d))]
    exact hcmp

/-- Witness for C7 at the doctest pair `1997-07-31` / `19970731`. -/
theorem claim_C7_witness :
    parse "1997-07-31".toList ref0 = .ok ⟨1997, 7, 31, 0, 0, 0, 0, .localTz⟩ ∧
    parse "19970731".toList ref0 = .ok ⟨1997, 7, 31, 0, 0, 0, 0, .localTz⟩ := by
  have h := claim_C7 1997 7 31 ref0 (by decide) (by decide) (by decide)
    (by decide) (by decide) (by decide)
  exact ⟨h.1, h.2⟩

/-- C10 (amended): the empty input matches the tz-only variant, and for
every valid reference with a four-digit year the result is the
reference's calendar date at midnight in the ambient local zone. -/
theorem claim_C10 (now : Ref) (hv : now.Valid) (hy : 1000 ≤ now.year) :
    parse [] now = .ok ⟨now.year, now.month, now.day, 0, 0, 0, 0,
      .localTz⟩ := by
  unfold parse parseWith
  have hm : matchFirst patternOrder [] =
      some ⟨false, none, none, none, none, none, none, none, none, none,
        none, none⟩ := by decide
  rw [hm]
  exact compose_ref now hv hy

/-- Witness for C10 at the doctest reference. -/
theorem claim_C10_witness :
    parse [] ref0 = .ok ⟨1950, 2, 27, 0, 0, 0, 0, .localTz⟩ := by
  exact claim_C10 ref0 (by constructor <;> decide) (by decide)

/-! ## C8 (amended): sub-second tokens -/

/-- A maximal digit run followed by a non-digit (or the end) is the first
candidate `\d+` produces. -/
theorem digitRuns_append : ∀ (ds r : List Char), ds ≠ [] →
    ds.all Char.isDigit = true →
    (match r with | [] => True | c :: _ => c.isDigit = false) →
    ∃ tail, digitRuns (ds ++ r) = (ds, r) :: tail := by
  intro ds
  induction ds with
  | nil => intro r h; exact absurd rfl h
  | cons c ds ih =>
    intro r _ hall hr
    simp only [List.all_cons, Bool.and_eq_true] at hall
    cases ds with
    | nil =>
      have hdr : digitRuns r = [] := by
        match r, hr with
        | [], _ => rfl
        | c' :: r', hr => simp [digitRuns, hr]
      exact ⟨[], by simp [digitRuns, hall.1, hdr]⟩
    | cons c2 ds' =>
      obtain ⟨tail, htail⟩ := ih r (by simp) hall.2 hr
      refine ⟨(tail.map fun p => (c :: p.1, p.2)) ++
        [([c], (c2 :: ds') ++ r)], ?_⟩
      have hstep : ∀ s : List Char, digitRuns (c :: s) =
          ((digitRuns s).map fun p => (c :: p.1, p.2)) ++ [([c], s)] := by
        intro s
        simp [digitRuns, hall.1]
      rw [show (c :: c2 :: ds') ++ r = c :: ((c2 :: ds') ++ r) from rfl,
        hstep, htail]
      simp

/-- The extended time pattern on `T HH:MM:SS.<digits>Z`. -/
theorem time_ext_subsec {H Mi Se ds : List Char}
    (hH : H.length = 2) (hHa : H.all Char.isDigit = true)
    (hM : Mi.length = 2) (hMa : Mi.all Char.isDigit = true)
    (hS : Se.length = 2) (hSa : Se.all Char.isDigit = true)
    (hne : ds ≠ []) (hda : ds.all Char.isDigit = true) :
    matchVariant .time_ext
      ('T' :: (H ++ ':' :: (Mi ++ ':' :: (Se ++ '.' :: (ds ++ ['Z']))))) =
      some ⟨false, none, none, none, none, none, none, some H, some Mi,
        some Se, some ds, some ['Z']⟩ := by
  have h2h := takeDigits_exact H (':' :: (Mi ++ ':' :: (Se ++ '.' :: (ds ++ ['Z'])))) hHa
  rw [hH] at h2h
  have h2m := takeDigits_exact Mi (':' :: (Se ++ '.' :: (ds ++ ['Z']))) hMa
  rw [hM] at h2m
  have h2s := takeDigits_exact Se ('.' :: (ds ++ ['Z'])) hSa
  rw [hS] at h2s
  obtain ⟨tail, htail⟩ := digitRuns_append ds ['Z'] hne hda (by decide)
  simp [matchVariant, matchTimeOnly, optT, iso_time_extended, h2h, h2m,
    h2s, htail, iso_tz_extended, firstFull, List.find?, fieldsOfTime,
    -List.find?_append]

/-- `matchFirst` over the dict order when the extended time pattern is
the first to match. -/
theorem matchFirst_of_time_ext {s : List Char} {f : Fields}
    (h1 : matchVariant .dt_ext s = none)
    (h2 : matchVariant .time_ext s = some f) :
    matchFirst patternOrder s = some f := by
  simp [patternOrder, matchFirst, h1, h2]

/-- For tokens of at most 22 digits the `Decimal` product has at most 28
significant digits, so no context rounding occurs: the contribution is
the exact integer part of the scaled value, below one second. -/
theorem decimalMicros_short {ds : List Char} (hall : ds.all Char.isDigit = true)
    (hlen : ds.length ≤ 22) :
    decimalMicros ds = digitsToNat ds * 1000000 / 10 ^ ds.length ∧
    decimalMicros ds < 1000000 := by
  have hN := digitsToNat_lt hall
  have hc : digitsToNat ds * 1000000 < 10 ^ (ds.length + 6) := by
    rw [pow_add]
    exact Nat.mul_lt_mul_of_lt_of_le hN (by norm_num) (by norm_num)
  have hc28 : digitsToNat ds * 1000000 < 10 ^ 28 :=
    lt_of_lt_of_le hc (Nat.pow_le_pow_right (by norm_num) (by omega))
  have hk : (natDigits (digitsToNat ds * 1000000)).length ≤ 28 :=
    natDigits_len_le 28 _ (by norm_num) hc28
  constructor
  · rw [decimalMicros, if_pos hk]
  · rw [decimalMicros, if_pos hk]
    rw [Nat.div_lt_iff_lt_mul (Nat.pos_pow_of_pos _ (by norm_num))]
    calc digitsToNat ds * 1000000 < 10 ^ (ds.length + 6) := hc
      _ = 1000000 * 10 ^ ds.length := by rw [pow_add]; ring

/-- Composition of a time-only match `HH:MM:SS.<sub>Z`: the date comes
from the reference, the time from the tokens, the microseconds from the
sub-second token, and the timezone is the fixed offset 0 named `Z`. -/
theorem compose_timeZ {H Mi Se ds : List Char} {h mi se : Nat} (now : Ref)
    (hv : now.Valid) (hy : 1000 ≤ now.year)
    (hH : dirH H = some h) (hM : dirM Mi = some mi) (hS : dirS Se = some se)
    (hh : h ≤ 23) (hmi : mi ≤ 59) (hse : se ≤ 59)
    (hms : decimalMicros ds < 1000000) :
    compose ⟨false, none, none, none, none, none, none, some H, some Mi,
      some Se, some ds, some ['Z']⟩ now =
      .ok ⟨now.year, now.month, now.day, h, mi, se, decimalMicros ds,
        .fixed 0 ['Z']⟩ := by
  obtain ⟨h1, h2, h3, h4, h5, h6, _⟩ := hv
  unfold compose
  simp only [Option.elim, if_false, Bool.false_eq_true, ite_false,
    dirY_natDigits hy h2, dirm_natDigits h3 h4, dird_natDigits h5
      (le_trans h6 (daysInMonth_le_31 _ _ h3 h4)), hH, hM, hS]
  rw [if_pos ⟨by omega, h2, h6⟩, if_pos hse]
  show compose.finish _ _ = _
  unfold compose.finish
  have htz : TimeZone ['Z'] = some 0 := rfl
  simp only [htz]
  unfold addMicros
  have e0 : decimalMicros ds / 1000000 = 0 := Nat.div_eq_of_lt hms
  simp only [Nat.zero_add, e0, Nat.add_zero]
  have es : se / 60 = 0 := Nat.div_eq_of_lt (by omega)
  have em : mi / 60 = 0 := Nat.div_eq_of_lt (by omega)
  have eh : h / 24 = 0 := Nat.div_eq_of_lt (by omega)
  simp only [es, em, eh, Nat.add_zero]
  rw [if_pos trivial]
  rw [Nat.mod_eq_of_lt hms, Nat.mod_eq_of_lt (show se < 60 by omega),
    Nat.mod_eq_of_lt (show mi < 60 by omega),
    Nat.mod_eq_of_lt (show h < 24 by omega)]

/-- C8 (amended): for every sub-second token of 1 to 22 digits, parsing
`T00:00:00.<token>Z` against any valid reference with a four-digit year
composes the reference's date at 00:00:00 UTC with exactly
`⌊0.<token> * 10^6⌋` microseconds — the integer part of the token read as
a decimal fraction of a second, scaled to microseconds and added to the
(zero) composed time. -/
theorem claim_C8 (ds : List Char) (now : Ref) (hne : ds ≠ [])
    (hall : ds.all Char.isDigit = true) (hlen : ds.length ≤ 22)
    (hv : now.Valid) (hy : 1000 ≤ now.year) :
    parse ('T' :: ('0' :: '0' :: ':' :: '0' :: '0' :: ':' :: '0' :: '0' ::
      '.' :: (ds ++ ['Z']))) now =
      .ok ⟨now.year, now.month, now.day, 0, 0, 0,
        digitsToNat ds * 1000000 / 10 ^ ds.length, .fixed 0 ['Z']⟩ := by
  obtain ⟨heq, hlt⟩ := decimalMicros_short hall hlen
  unfold parse parseWith
  have hmatch := time_ext_subsec
    (show (['0', '0'] : List Char).length = 2 from rfl) (by decide)
    (show (['0', '0'] : List Char).length = 2 from rfl) (by decide)
    (show (['0', '0'] : List Char).length = 2 from rfl) (by decide)
    hne hall
  simp only [List.cons_append, List.nil_append] at hmatch
  rw [matchFirst_of_time_ext (dt_ext_none_head _ (by decide)) hmatch]
  rw [← heq]
  exact compose_timeZ now hv hy (by decide) (by decide) (by decide)
    (by decide) (by decide) (by decide) hlt

/-- Witness for C8 at the doctest token `423` (423000 microseconds). -/
theorem claim_C8_witness :
    parse "T00:00:00.423Z".toList ref0 =
      .ok ⟨1950, 2, 27, 0, 0, 0, 423000, .fixed 0 ['Z']⟩ := by
  have h := claim_C8 "423".toList ref0 (by decide) (by decide) (by decide)
    (by constructor <;> decide) (by decide)
  exact h

/-! ## Calendar arithmetic for the ordinal-date path (C9) -/

theorem isLeap_iff {y : Nat} : isLeap y = true ↔
    (y % 4 = 0 ∧ (y % 100 ≠ 0 ∨ y % 400 = 0)) := by
  simp [isLeap]

theorem step_mod (K a B : Nat) (hB : B < K) : (K * a + B) % K = B := by
  rw [Nat.add_comm, Nat.mul_comm, Nat.add_mul_mod_self_right, Nat.mod_eq_of_lt hB]

theorem step_div (K a B : Nat) (hB : B < K) : (K * a + B) / K = a := by
  rw [Nat.add_comm, Nat.mul_comm, Nat.add_mul_div_right _ _ (by omega : 0 < K),
    Nat.div_eq_of_lt hB]
  omega

theorem cascade_notlast (a b c e t : Nat) (hb : b ≤ 3) (hc : c ≤ 24)
    (he : e ≤ 3) (ht : t ≤ 364) :
    (146097*a + 36524*b + 1461*c + 365*e + t) / 146097 = a ∧
    (146097*a + 36524*b + 1461*c + 365*e + t) % 146097 / 36524 = b ∧
    (146097*a + 36524*b + 1461*c + 365*e + t) % 146097 % 36524 / 1461 = c ∧
    (146097*a + 36524*b + 1461*c + 365*e + t) % 146097 % 36524 % 1461 / 365 = e ∧
    (146097*a + 36524*b + 1461*c + 365*e + t) % 146097 % 36524 % 1461 % 365 = t := by
  have e1 : 146097*a + 36524*b + 1461*c + 365*e + t =
      146097*a + (36524*b + 1461*c + 365*e + t) := by ring
  rw [e1, step_div _ _ _ (by omega), step_mod _ _ _ (by omega)]
  have e2 : 36524*b + 1461*c + 365*e + t = 36524*b + (1461*c + 365*e + t) := by
    ring
  rw [e2, step_div _ _ _ (by omega), step_mod _ _ _ (by omega)]
  have e3 : 1461*c + 365*e + t = 1461*c + (365*e + t) := by ring
  rw [e3, step_div _ _ _ (by omega), step_mod _ _ _ (by omega),
    step_div _ _ _ (by omega), step_mod _ _ _ (by omega)]
  simp

theorem cascade_last4 (a b c : Nat) (hb : b ≤ 3) (hc : c ≤ 23) :
    (146097*a + 36524*b + 1461*c + 1460) / 146097 = a ∧
    (146097*a + 36524*b + 1461*c + 1460) % 146097 / 36524 = b ∧
    (146097*a + 36524*b + 1461*c + 1460) % 146097 % 36524 / 1461 = c ∧
    (146097*a + 36524*b + 1461*c + 1460) % 146097 % 36524 % 1461 / 365 = 4 := by
  have e1 : 146097*a + 36524*b + 1461*c + 1460 =
      146097*a + (36524*b + 1461*c + 1460) := by ring
  rw [e1, step_div _ _ _ (by omega), step_mod _ _ _ (by omega)]
  have e2 : 36524*b + 1461*c + 1460 = 36524*b + (1461*c + 1460) := by ring
  rw [e2, step_div _ _ _ (by omega), step_mod _ _ _ (by omega)]
  rw [step_div _ _ _ (by omega), step_mod _ _ _ (by omega)]
  simp

theorem cascade_last100 (a : Nat) :
    (146097*a + 146096) / 146097 = a ∧
    (146097*a + 146096) % 146097 / 36524 = 4 ∧
    (146097*a + 146096) % 146097 % 36524 / 1461 = 0 ∧
    (146097*a + 146096) % 146097 % 36524 % 1461 / 365 = 0 := by
  rw [step_mod _ _ _ (by omega), step_div _ _ _ (by omega)]
  norm_num

theorem dayOfYearToMD_last {y : Nat} (hli : isLeap y = true) :
    dayOfYearToMD y 365 = (12, 31) := by
  simp [dayOfYearToMD, daysBeforeMonth, hli]

theorem isLeap_of_daysInYear {y t : Nat} (h365 : t = 365)
    (ht : t < daysInYear y) : isLeap y = true := by
  subst h365
  by_contra h
  rw [Bool.not_eq_true] at h
  rw [daysInYear, h] at ht
  simp at ht

theorem fromOrdinal_inYear (y t : Nat) (hy1 : 1 ≤ y) (hy2 : y ≤ 9999)
    (ht : t < daysInYear y) :
    fromOrdinal (daysBeforeYear y + t + 1) =
      (y, (dayOfYearToMD y t).1, (dayOfYearToMD y t).2) := by
  have ht366 : t ≤ 365 := by
    have : daysInYear y ≤ 366 := by
      rw [daysInYear]; split <;> omega
    omega
  obtain ⟨a, b, c, e, hdec, hb, hc, he⟩ :
      ∃ a b c e, y - 1 = 400*a + 100*b + 4*c + e ∧ b ≤ 3 ∧ c ≤ 24 ∧ e ≤ 3 :=
    ⟨(y-1)/400, (y-1)%400/100, (y-1)%100/4, (y-1)%4,
      by omega, by omega, by omega, by omega⟩
  have hDval : daysBeforeYear y = 146097*a + 36524*b + 1461*c + 365*e := by
    rw [daysBeforeYear]
    omega
  by_cases h365 : t = 365
  · have hli : isLeap y = true := isLeap_of_daysInYear h365 ht
    have hl4 := Iff.mp isLeap_iff hli
    have he3 : e = 3 := by omega
    subst h365
    by_cases hc24 : c = 24
    · have hb3 : b = 3 := by omega
      have hval : daysBeforeYear y + 365 + 1 - 1 = 146097*a + 146096 := by
        rw [hDval]; omega
      obtain ⟨g1, g2, g3, g4⟩ := cascade_last100 a
      simp only [fromOrdinal, hval, g1, g2, g3, g4]
      rw [if_pos (by norm_num)]
      rw [dayOfYearToMD_last hli]
      have hyy : 400 * a + 100 * 4 + 4 * 0 + 0 + 1 - 1 = y := by omega
      rw [hyy]
    · have hval : daysBeforeYear y + 365 + 1 - 1 =
          146097*a + 36524*b + 1461*c + 1460 := by
        rw [hDval]; omega
      obtain ⟨g1, g2, g3, g4⟩ := cascade_last4 a b c hb (by omega)
      simp only [fromOrdinal, hval, g1, g2, g3, g4]
      rw [if_pos (by norm_num)]
      rw [dayOfYearToMD_last hli]
      have hyy : 400 * a + 100 * b + 4 * c + 4 + 1 - 1 = y := by omega
      rw [hyy]
  · have hval : daysBeforeYear y + t + 1 - 1 =
        146097*a + 36524*b + 1461*c + 365*e + t := by
      rw [hDval]; omega
    obtain ⟨g1, g2, g3, g4, g5⟩ := cascade_notlast a b c e t hb hc he (by omega)
    simp only [fromOrdinal, hval, g1, g2, g3, g4, g5]
    rw [if_neg (by omega)]
    have hyy : 400 * a + 100 * b + 4 * c + e + 1 = y := by omega
    rw [hyy]

/-! ## The month scan of the ordinal-date path -/

theorem dbm_vals_false {y : Nat} (hli : isLeap y = false) :
    daysBeforeMonth y 2 = 31 ∧ daysBeforeMonth y 3 = 59 ∧
    daysBeforeMonth y 4 = 90 ∧ daysBeforeMonth y 5 = 120 ∧
    daysBeforeMonth y 6 = 151 ∧ daysBeforeMonth y 7 = 181 ∧
    daysBeforeMonth y 8 = 212 ∧ daysBeforeMonth y 9 = 243 ∧
    daysBeforeMonth y 10 = 273 ∧ daysBeforeMonth y 11 = 304 ∧
    daysBeforeMonth y 12 = 334 ∧ daysBeforeMonth y 1 = 0 := by
  refine ⟨?_, ?_, ?_, ?_, ?_, ?_, ?_, ?_, ?_, ?_, ?_, ?_⟩ <;>
    simp [daysBeforeMonth, hli]

theorem dbm_vals_true {y : Nat} (hli : isLeap y = true) :
    daysBeforeMonth y 2 = 31 ∧ daysBeforeMonth y 3 = 60 ∧
    daysBeforeMonth y 4 = 91 ∧ daysBeforeMonth y 5 = 121 ∧
    daysBeforeMonth y 6 = 152 ∧ daysBeforeMonth y 7 = 182 ∧
    daysBeforeMonth y 8 = 213 ∧ daysBeforeMonth y 9 = 244 ∧
    daysBeforeMonth y 10 = 274 ∧ daysBeforeMonth y 11 = 305 ∧
    daysBeforeMonth y 12 = 335 ∧ daysBeforeMonth y 1 = 0 := by
  refine ⟨?_, ?_, ?_, ?_, ?_, ?_, ?_, ?_, ?_, ?_, ?_, ?_⟩ <;>
    simp [daysBeforeMonth, hli]

theorem dim_vals_false {y : Nat} (hli : isLeap y = false) :
    daysInMonth y 1 = 31 ∧ daysInMonth y 2 = 28 ∧ daysInMonth y 3 = 31 ∧
    daysInMonth y 4 = 30 ∧ daysInMonth y 5 = 31 ∧ daysInMonth y 6 = 30 ∧
    daysInMonth y 7 = 31 ∧ daysInMonth y 8 = 31 ∧ daysInMonth y 9 = 30 ∧
    daysInMonth y 10 = 31 ∧ daysInMonth y 11 = 30 ∧ daysInMonth y 12 = 31 := by
  refine ⟨?_, ?_, ?_, ?_, ?_, ?_, ?_, ?_, ?_, ?_, ?_, ?_⟩ <;>
    simp [daysInMonth, hli]

theorem dim_vals_true {y : Nat} (hli : isLeap y = true) :
    daysInMonth y 1 = 31 ∧ daysInMonth y 2 = 29 ∧ daysInMonth y 3 = 31 ∧
    daysInMonth y 4 = 30 ∧ daysInMonth y 5 = 31 ∧ daysInMonth y 6 = 30 ∧
    daysInMonth y 7 = 31 ∧ daysInMonth y 8 = 31 ∧ daysInMonth y 9 = 30 ∧
    daysInMonth y 10 = 31 ∧ daysInMonth y 11 = 30 ∧ daysInMonth y 12 = 31 := by
  refine ⟨?_, ?_, ?_, ?_, ?_, ?_, ?_, ?_, ?_, ?_, ?_, ?_⟩ <;>
    simp [daysInMonth, hli]

theorem dayOfYearToMD_eq (y m d : Nat) (hm1 : 1 ≤ m) (hm2 : m ≤ 12)
    (hd1 : 1 ≤ d) (hd2 : d ≤ daysInMonth y m) :
    dayOfYearToMD y (daysBeforeMonth y m + (d - 1)) = (m, d) := by
  cases hli : isLeap y
  · obtain ⟨e2, e3, e4, e5, e6, e7, e8, e9, e10, e11, e12, e1⟩ :=
      dbm_vals_false hli
    obtain ⟨i1, i2, i3, i4, i5, i6, i7, i8, i9, i10, i11, i12⟩ :=
      dim_vals_false hli
    rw [dayOfYearToMD, e2, e3, e4, e5, e6, e7, e8, e9, e10, e11, e12]
    interval_cases m
    · rw [i1] at hd2
      rw [e1]
      rw [if_pos (show 0 + (d - 1) < 31 by omega)]
      simp only [Prod.mk.injEq, true_and, and_true]
      omega
    · rw [i2] at hd2
      rw [e2]
      rw [if_neg (show ¬(31 + (d - 1) < 31) by omega),
        if_pos (show 31 + (d - 1) < 59 by omega)]
      simp only [Prod.mk.injEq, true_and, and_true]
      omega
    · rw [i3] at hd2
      rw [e3]
      rw [if_neg (show ¬(59 + (d - 1) < 31) by omega),
        if_neg (show ¬(59 + (d - 1) < 59) by omega),
        if_pos (show 59 + (d - 1) < 90 by omega)]
      simp only [Prod.mk.injEq, true_and, and_true]
      omega
    · rw [i4] at hd2
      rw [e4]
      rw [if_neg (show ¬(90 + (d - 1) < 31) by omega),
        if_neg (show ¬(90 + (d - 1) < 59) by omega),
        if_neg (show ¬(90 + (d - 1) < 90) by omega),
        if_pos (show 90 + (d - 1) < 120 by omega)]
      simp only [Prod.mk.injEq, true_and, and_true]
      omega
    · rw [i5] at hd2
      rw [e5]
      rw [if_neg (show ¬(120 + (d - 1) < 31) by omega),
        if_neg (show ¬(120 + (d - 1) < 59) by omega),
        if_neg (show ¬(120 + (d - 1) < 90) by omega),
        if_neg (show ¬(120 + (d - 1) < 120) by omega),
        if_pos (show 120 + (d - 1) < 151 by omega)]
      simp only [Prod.mk.injEq, true_and, and_true]
      omega
    · rw [i6] at hd2
      rw [e6]
      rw [if_neg (show ¬(151 + (d - 1) < 31) by omega),
        if_neg (show ¬(151 + (d - 1) < 59) by omega),
        if_neg (show ¬(151 + (d - 1) < 90) by omega),
        if_neg (show ¬(151 + (d - 1) < 120) by omega),
        if_neg (show ¬(151 + (d - 1) < 151) by omega),
        if_pos (show 151 + (d - 1) < 181 by omega)]
      simp only [Prod.mk.injEq, true_and, and_true]
      omega
    · rw [i7] at hd2
      rw [e7]
      rw [if_neg (show ¬(181 + (d - 1) < 31) by omega),
        if_neg (show ¬(181 + (d - 1) < 59) by omega),
        if_neg (show ¬(181 + (d - 1) < 90) by omega),
        if_neg (show ¬(181 + (d - 1) < 120) by omega),
        if_neg (show ¬(181 + (d - 1) < 151) by omega),
        if_neg (show ¬(181 + (d - 1) < 181) by omega),
        if_pos (show 181 + (d - 1) < 212 by omega)]
      simp only [Prod.mk.injEq, true_and, and_true]
      omega
    · rw [i8] at hd2
      rw [e8]
      rw [if_neg (show ¬(212 + (d - 1) < 31) by omega),
        if_neg (show ¬(212 + (d - 1) < 59) by omega),
        if_neg (show ¬(212 + (d - 1) < 90) by omega),
        if_neg (show ¬(212 + (d - 1) < 120) by omega),
        if_neg (show ¬(212 + (d - 1) < 151) by omega),
        if_neg (show ¬(212 + (d - 1) < 181) by omega),
        if_neg (show ¬(212 + (d - 1) < 212) by omega),
        if_pos (show 212 + (d - 1) < 243 by omega)]
      simp only [Prod.mk.injEq, true_and, and_true]
      omega
    · rw [i9] at hd2
      rw [e9]
      rw [if_neg (show ¬(243 + (d - 1) < 31) by omega),
        if_neg (show ¬(243 + (d - 1) < 59) by omega),
        if_neg (show ¬(243 + (d - 1) < 90) by omega),
        if_neg (show ¬(243 + (d - 1) < 120) by omega),
        if_neg (show ¬(243 + (d - 1) < 151) by omega),
        if_neg (show ¬(243 + (d - 1) < 181) by omega),
        if_neg (show ¬(243 + (d - 1) < 212) by omega),
        if_neg (show ¬(243 + (d - 1) < 243) by omega),
        if_pos (show 243 + (d - 1) < 273 by omega)]
      simp only [Prod.mk.injEq, true_and, and_true]
      omega
    · rw [i10] at hd2
      rw [e10]
      rw [if_neg (show ¬(273 + (d - 1) < 31) by omega),
        if_neg (show ¬(273 + (d - 1) < 59) by omega),
        if_neg (show ¬(273 + (d - 1) < 90) by omega),
        if_neg (show ¬(273 + (d - 1) < 120) by omega),
        if_neg (show ¬(273 + (d - 1) < 151) by omega),
        if_neg (show ¬(273 + (d - 1) < 181) by omega),
        if_neg (show ¬(273 + (d - 1) < 212) by omega),
        if_neg (show ¬(273 + (d - 1) < 243) by omega),
        if_neg (show ¬(273 + (d - 1) < 273) by omega),
        if_pos (show 273 + (d - 1) < 304 by omega)]
      simp only [Prod.mk.injEq, true_and, and_true]
      omega
    · rw [i11] at hd2
      rw [e11]
      rw [if_neg (show ¬(304 + (d - 1) < 31) by omega),
        if_neg (show ¬(304 + (d - 1) < 59) by omega),
        if_neg (show ¬(304 + (d - 1) < 90) by omega),
        if_neg (show ¬(304 + (d - 1) < 120) by omega),
        if_neg (show ¬(304 + (d - 1) < 151) by omega),
        if_neg (show ¬(304 + (d - 1) < 181) by omega),
        if_neg (show ¬(304 + (d - 1) < 212) by omega),
        if_neg (show ¬(304 + (d - 1) < 243) by omega),
        if_neg (show ¬(304 + (d - 1) < 273) by omega),
        if_neg (show ¬(304 + (d - 1) < 304) by omega),
        if_pos (show 304 + (d - 1) < 334 by omega)]
      simp only [Prod.mk.injEq, true_and, and_true]
      omega
    · rw [i12] at hd2
      rw [e12]
      rw [if_neg (show ¬(334 + (d - 1) < 31) by omega),
        if_neg (show ¬(334 + (d - 1) < 59) by omega),
        if_neg (show ¬(334 + (d - 1) < 90) by omega),
        if_neg (show ¬(334 + (d - 1) < 120) by omega),
        if_neg (show ¬(334 + (d - 1) < 151) by omega),
        if_neg (show ¬(334 + (d - 1) < 181) by omega),
        if_neg (show ¬(334 + (d - 1) < 212) by omega),
        if_neg (show ¬(334 + (d - 1) < 243) by omega),
        if_neg (show ¬(334 + (d - 1) < 273) by omega),
        if_neg (show ¬(334 + (d - 1) < 304) by omega),
        if_neg (show ¬(334 + (d - 1) < 334) by omega)]
      simp only [Prod.mk.injEq, true_and, and_true]
      omega
  · obtain ⟨e2, e3, e4, e5, e6, e7, e8, e9, e10, e11, e12, e1⟩ :=
      dbm_vals_true hli
    obtain ⟨i1, i2, i3, i4, i5, i6, i7, i8, i9, i10, i11, i12⟩ :=
      dim_vals_true hli
    rw [dayOfYearToMD, e2, e3, e4, e5, e6, e7, e8, e9, e10, e11, e12]
    interval_cases m
    · rw [i1] at hd2
      rw [e1]
      rw [if_pos (show 0 + (d - 1) < 31 by omega)]
      simp only [Prod.mk.injEq, true_and, and_true]
      omega
    · rw [i2] at hd2
      rw [e2]
      rw [if_neg (show ¬(31 + (d - 1) < 31) by omega),
        if_pos (show 31 + (d - 1) < 60 by omega)]
      simp only [Prod.mk.injEq, true_and, and_true]
      omega
    · rw [i3] at hd2
      rw [e3]
      rw [if_neg (show ¬(60 + (d - 1) < 31) by omega),
        if_neg (show ¬(60 + (d - 1) < 60) by omega),
        if_pos (show 60 + (d - 1) < 91 by omega)]
      simp only [Prod.mk.injEq, true_and, and_true]
      omega
    · rw [i4] at hd2
      rw [e4]
      rw [if_neg (show ¬(91 + (d - 1) < 31) by omega),
        if_neg (show ¬(91 + (d - 1) < 60) by omega),
        if_neg (show ¬(91 + (d - 1) < 91) by omega),
        if_pos (show 91 + (d - 1) < 121 by omega)]
      simp only [Prod.mk.injEq, true_and, and_true]
      omega
    · rw [i5] at hd2
      rw [e5]
      rw [if_neg (show ¬(121 + (d - 1) < 31) by omega),
        if_neg (show ¬(121 + (d - 1) < 60) by omega),
        if_neg (show ¬(121 + (d - 1) < 91) by omega),
        if_neg (show ¬(121 + (d - 1) < 121) by omega),
        if_pos (show 121 + (d - 1) < 152 by omega)]
      simp only [Prod.mk.injEq, true_and, and_true]
      omega
    · rw [i6] at hd2
      rw [e6]
      rw [if_neg (show ¬(152 + (d - 1) < 31) by omega),
        if_neg (show ¬(152 + (d - 1) < 60) by omega),
        if_neg (show ¬(152 + (d - 1) < 91) by omega),
        if_neg (show ¬(152 + (d - 1) < 121) by omega),
        if_neg (show ¬(152 + (d - 1) < 152) by omega),
        if_pos (show 152 + (d - 1) < 182 by omega)]
      simp only [Prod.mk.injEq, true_and, and_true]
      omega
    · rw [i7] at hd2
      rw [e7]
      rw [if_neg (show ¬(182 + (d - 1) < 31) by omega),
        if_neg (show ¬(182 + (d - 1) < 60) by omega),
        if_neg (show ¬(182 + (d - 1) < 91) by omega),
        if_neg (show ¬(182 + (d - 1) < 121) by omega),
        if_neg (show ¬(182 + (d - 1) < 152) by omega),
        if_neg (show ¬(182 + (d - 1) < 182) by omega),
        if_pos (show 182 + (d - 1) < 213 by omega)]
      simp only [Prod.mk.injEq, true_and, and_true]
      omega
    · rw [i8] at hd2
      rw [e8]
      rw [if_neg (show ¬(213 + (d - 1) < 31) by omega),
        if_neg (show ¬(213 + (d - 1) < 60) by omega),
        if_neg (show ¬(213 + (d - 1) < 91) by omega),
        if_neg (show ¬(213 + (d - 1) < 121) by omega),
        if_neg (show ¬(213 + (d - 1) < 152) by omega),
        if_neg (show ¬(213 + (d - 1) < 182) by omega),
        if_neg (show ¬(213 + (d - 1) < 213) by omega),
        if_pos (show 213 + (d - 1) < 244 by omega)]
      simp only [Prod.mk.injEq, true_and, and_true]
      omega
    · rw [i9] at hd2
      rw [e9]
      rw [if_neg (show ¬(244 + (d - 1) < 31) by omega),
        if_neg (show ¬(244 + (d - 1) < 60) by omega),
        if_neg (show ¬(244 + (d - 1) < 91) by omega),
        if_neg (show ¬(244 + (d - 1) < 121) by omega),
        if_neg (show ¬(244 + (d - 1) < 152) by omega),
        if_neg (show ¬(244 + (d - 1) < 182) by omega),
        if_neg (show ¬(244 + (d - 1) < 213) by omega),
        if_neg (show ¬(244 + (d - 1) < 244) by omega),
        if_pos (show 244 + (d - 1) < 274 by omega)]
      simp only [Prod.mk.injEq, true_and, and_true]
      omega
    · rw [i10] at hd2
      rw [e10]
      rw [if_neg (show ¬(274 + (d - 1) < 31) by omega),
        if_neg (show ¬(274 + (d - 1) < 60) by omega),
        if_neg (show ¬(274 + (d - 1) < 91) by omega),
        if_neg (show ¬(274 + (d - 1) < 121) by omega),
        if_neg (show ¬(274 + (d - 1) < 152) by omega),
        if_neg (show ¬(274 + (d - 1) < 182) by omega),
        if_neg (show ¬(274 + (d - 1) < 213) by omega),
        if_neg (show ¬(274 + (d - 1) < 244) by omega),
        if_neg (show ¬(274 + (d - 1) < 274) by omega),
        if_pos (show 274 + (d - 1) < 305 by omega)]
      simp only [Prod.mk.injEq, true_and, and_true]
      omega
    · rw [i11] at hd2
      rw [e11]
      rw [if_neg (show ¬(305 + (d - 1) < 31) by omega),
        if_neg (show ¬(305 + (d - 1) < 60) by omega),
        if_neg (show ¬(305 + (d - 1) < 91) by omega),
        if_neg (show ¬(305 + (d - 1) < 121) by omega),
        if_neg (show ¬(305 + (d - 1) < 152) by omega),
        if_neg (show ¬(305 + (d - 1) < 182) by omega),
        if_neg (show ¬(305 + (d - 1) < 213) by omega),
        if_neg (show ¬(305 + (d - 1) < 244) by omega),
        if_neg (show ¬(305 + (d - 1) < 274) by omega),
        if_neg (show ¬(305 + (d - 1) < 305) by omega),
        if_pos (show 305 + (d - 1) < 335 by omega)]
      simp only [Prod.mk.injEq, true_and, and_true]
      omega
    · rw [i12] at hd2
      rw [e12]
      rw [if_neg (show ¬(335 + (d - 1) < 31) by omega),
        if_neg (show ¬(335 + (d - 1) < 60) by omega),
        if_neg (show ¬(335 + (d - 1) < 91) by omega),
        if_neg (show ¬(335 + (d - 1) < 121) by omega),
        if_neg (show ¬(335 + (d - 1) < 152) by omega),
        if_neg (show ¬(335 + (d - 1) < 182) by omega),
        if_neg (show ¬(335 + (d - 1) < 213) by omega),
        if_neg (show ¬(335 + (d - 1) < 244) by omega),
        if_neg (show ¬(335 + (d - 1) < 274) by omega),
        if_neg (show ¬(335 + (d - 1) < 305) by omega),
        if_neg (show ¬(335 + (d - 1) < 335) by omega)]
      simp only [Prod.mk.injEq, true_and, and_true]
      omega

theorem dayOfYearToMD_valid (y t : Nat) (ht : t < daysInYear y) :
    1 ≤ (dayOfYearToMD y t).1 ∧ (dayOfYearToMD y t).1 ≤ 12 ∧
    1 ≤ (dayOfYearToMD y t).2 ∧
    (dayOfYearToMD y t).2 ≤ daysInMonth y (dayOfYearToMD y t).1 := by
  cases hli : isLeap y
  · rw [daysInYear, hli] at ht
    norm_num at ht
    obtain ⟨e2, e3, e4, e5, e6, e7, e8, e9, e10, e11, e12, e1⟩ :=
      dbm_vals_false hli
    obtain ⟨i1, i2, i3, i4, i5, i6, i7, i8, i9, i10, i11, i12⟩ :=
      dim_vals_false hli
    rw [dayOfYearToMD, e2, e3, e4, e5, e6, e7, e8, e9, e10, e11, e12]
    by_cases h1 : t < 31
    · rw [if_pos h1]
      simp only [i1]
      omega
    rw [if_neg h1]
    by_cases h2 : t < 59
    · rw [if_pos h2]
      simp only [i2]
      omega
    rw [if_neg h2]
    by_cases h3 : t < 90
    · rw [if_pos h3]
      simp only [i3]
      omega
    rw [if_neg h3]
    by_cases h4 : t < 120
    · rw [if_pos h4]
      simp only [i4]
      omega
    rw [if_neg h4]
    by_cases h5 : t < 151
    · rw [if_pos h5]
      simp only [i5]
      omega
    rw [if_neg h5]
    by_cases h6 : t < 181
    · rw [if_pos h6]
      simp only [i6]
      omega
    rw [if_neg h6]
    by_cases h7 : t < 212
    · rw [if_pos h7]
      simp only [i7]
      omega
    rw [if_neg h7]
    by_cases h8 : t < 243
    · rw [if_pos h8]
      simp only [i8]
      omega
    rw [if_neg h8]
    by_cases h9 : t < 273
    · rw [if_pos h9]
      simp only [i9]
      omega
    rw [if_neg h9]
    by_cases h10 : t < 304
    · rw [if_pos h10]
      simp only [i10]
      omega
    rw [if_neg h10]
    by_cases h11 : t < 334
    · rw [if_pos h11]
      simp only [i11]
      omega
    rw [if_neg h11]
    simp only [i12]
    omega
  · rw [daysInYear, hli] at ht
    norm_num at ht
    obtain ⟨e2, e3, e4, e5, e6, e7, e8, e9, e10, e11, e12, e1⟩ :=
      dbm_vals_true hli
    obtain ⟨i1, i2, i3, i4, i5, i6, i7, i8, i9, i10, i11, i12⟩ :=
      dim_vals_true hli
    rw [dayOfYearToMD, e2, e3, e4, e5, e6, e7, e8, e9, e10, e11, e12]
    by_cases h1 : t < 31
    · rw [if_pos h1]
      simp only [i1]
      omega
    rw [if_neg h1]
    by_cases h2 : t < 60
    · rw [if_pos h2]
      simp only [i2]
      omega
    rw [if_neg h2]
    by_cases h3 : t < 91
    · rw [if_pos h3]
      simp only [i3]
      omega
    rw [if_neg h3]
    by_cases h4 : t < 121
    · rw [if_pos h4]
      simp only [i4]
      omega
    rw [if_neg h4]
    by_cases h5 : t < 152
    · rw [if_pos h5]
      simp only [i5]
      omega
    rw [if_neg h5]
    by_cases h6 : t < 182
    · rw [if_pos h6]
      simp only [i6]
      omega
    rw [if_neg h6]
    by_cases h7 : t < 213
    · rw [if_pos h7]
      simp only [i7]
      omega
    rw [if_neg h7]
    by_cases h8 : t < 244
    · rw [if_pos h8]
      simp only [i8]
      omega
    rw [if_neg h8]
    by_cases h9 : t < 274
    · rw [if_pos h9]
      simp only [i9]
      omega
    rw [if_neg h9]
    by_cases h10 : t < 305
    · rw [if_pos h10]
      simp only [i10]
      omega
    rw [if_neg h10]
    by_cases h11 : t < 335
    · rw [if_pos h11]
      simp only [i11]
      omega
    rw [if_neg h11]
    simp only [i12]
    omega

/-! ## C9: ordinal-date inputs -/

theorem daysInYear_le_366 (y : Nat) : daysInYear y ≤ 366 := by
  rw [daysInYear]; split <;> omega

theorem dirj_digits3 {j : Nat} (h1 : 1 ≤ j) (h2 : j ≤ 366) :
    dirj (digits3 j) = some j := by
  have hv := digitsToNat_digits3 (show j ≤ 999 by omega)
  rw [dirj, hv, if_pos ⟨digits3_all j, digits3_len j, h1, h2⟩]

/-- New Year's Day of year `y + 1` never exceeds the ordinal range: the
last representable day is 9999-12-31. -/
theorem ordinal_bound (y : Nat) (hy2 : y ≤ 9999) :
    daysBeforeYear y + daysInYear y ≤ maxOrdinal := by
  rw [daysBeforeYear, daysInYear, maxOrdinal]
  cases hli : isLeap y
  · simp only [Bool.false_eq_true, if_false]
    omega
  · have h := Iff.mp isLeap_iff hli
    simp only [if_true]
    omega

/-- The composition stage on a year plus ordinal-day capture: the `%j`
path goes through `date(year, 1, 1).toordinal() + julian - 1` and
`date.fromordinal`, landing on day `j` of year `y`. -/
theorem compose_ord {Y J : List Char} {y j : Nat} (now : Ref)
    (hY : dirY Y = some y) (hJ : dirj J = some j)
    (hy1 : 1 ≤ y) (hy2 : y ≤ 9999) (hj1 : 1 ≤ j) (hj2 : j ≤ daysInYear y) :
    compose ⟨true, some Y, none, none, some J, none, none, none, none,
      none, none, none⟩ now =
      .ok ⟨y, (dayOfYearToMD y (j - 1)).1, (dayOfYearToMD y (j - 1)).2,
        0, 0, 0, 0, .localTz⟩ := by
  have hdbm1 : daysBeforeMonth y 1 = 0 := by simp [daysBeforeMonth]
  have hord : toOrdinal y 1 1 = daysBeforeYear y + 1 := by
    rw [toOrdinal, hdbm1]
  unfold compose
  simp only [Option.elim, hY, hJ, Option.map_some', eq_self_iff_true, ite_true]
  rw [if_pos ⟨hy1, hy2⟩]
  have hcond : (1 : Int) ≤ (j : Int) - 1 + (toOrdinal y 1 1 : Int) ∧
      (j : Int) - 1 + (toOrdinal y 1 1 : Int) ≤ (maxOrdinal : Int) := by
    have hb := ordinal_bound y hy2
    rw [hord]
    push_cast
    omega
  rw [if_pos hcond]
  have harg : ((j : Int) - 1 + (toOrdinal y 1 1 : Int)).toNat =
      daysBeforeYear y + (j - 1) + 1 := by
    rw [hord]
    omega
  rw [harg, fromOrdinal_inYear y (j - 1) hy1 hy2 (by omega),
    if_pos (by omega : (0 : Nat) ≤ 59)]
  rfl

/-- C9: for every valid pair of a year and a day of that year, the
ordinal forms `YYYY-DDD` and `YYYYDDD` parse to the calendar date reached
by counting `DDD` days into the year, at midnight in the ambient local
zone — the same timestamp that parsing that calendar date's own
`YYYY-MM-DD` spelling produces. -/
theorem claim_C9 (y j : Nat) (now : Ref) (hy1 : 1 ≤ y) (hy2 : y ≤ 9999)
    (hj1 : 1 ≤ j) (hj2 : j ≤ daysInYear y) :
    parse (digits4 y ++ '-' :: digits3 j) now =
      .ok ⟨y, (dayOfYearToMD y (j - 1)).1, (dayOfYearToMD y (j - 1)).2,
        0, 0, 0, 0, .localTz⟩ ∧
    parse (digits4 y ++ digits3 j) now =
      .ok ⟨y, (dayOfYearToMD y (j - 1)).1, (dayOfYearToMD y (j - 1)).2,
        0, 0, 0, 0, .localTz⟩ ∧
    parse (digits4 y ++ '-' :: (digits2 (dayOfYearToMD y (j - 1)).1 ++
        '-' :: digits2 (dayOfYearToMD y (j - 1)).2)) now =
      .ok ⟨y, (dayOfYearToMD y (j - 1)).1, (dayOfYearToMD y (j - 1)).2,
        0, 0, 0, 0, .localTz⟩ := by
  have hj366 : j ≤ 366 := le_trans hj2 (daysInYear_le_366 y)
  have hcmp := compose_ord now (dirY_digits4 hy2) (dirj_digits3 hj1 hj366)
    hy1 hy2 hj1 hj2
  obtain ⟨hm1, hm2, hd1, hd2⟩ := dayOfYearToMD_valid y (j - 1) (by omega)
  refine ⟨?_, ?_, ?_⟩
  · unfold parse parseWith
    rw [matchFirst_of_dt_ext (dt_ext_ord (digits4_len y) (digits4_all y)
      (digits3_len j) (digits3_all j))]
    exact hcmp
  · unfold parse parseWith
    rw [matchFirst_of_dt
      (dt_ext_none_append (digits4_len y) (digits4_all y) (by
        simp only [digits3, List.cons_append]
        exact ⟨ne_of_digit (digitChar_isDigit (by omega)) (by decide),
          ne_of_digit (digitChar_isDigit (by omega)) (by decide)⟩))
      (time_ext_none_4digits _ (digits4_len y) (digits4_all y))
      (tz_none_digits _ (by simp [digits4]) (digits4_all y))
      (dt_ord (digits4_len y) (digits4_all y) (digits3_len j) (digits3_all j))]
    exact hcmp
  · unfold parse parseWith
    rw [matchFirst_of_dt_ext (dt_ext_ymd (digits4_len y) (digits4_all y)
      (digits2_len _) (digits2_all _) (digits2_len _) (digits2_all _))]
    exact compose_ymd now (dirY_digits4 hy2) (dirm_digits2 hm1 hm2)
      (dird_digits2 hd1 (le_trans hd2 (daysInMonth_le_31 _ _ hm1 hm2)))
      hy1 hy2 hd2

/-- Witness for C9 at the doctest pair `1997-206` / `1997206`, day 206 of
1997 being July 25. -/
theorem claim_C9_witness :
    parse "1997-206".toList ref0 = .ok ⟨1997, 7, 25, 0, 0, 0, 0, .localTz⟩ ∧
    parse "1997206".toList ref0 = .ok ⟨1997, 7, 25, 0, 0, 0, 0, .localTz⟩ ∧
    parse "1997-07-25".toList ref0 = .ok ⟨1997, 7, 25, 0, 0, 0, 0, .localTz⟩ := by
  have h := claim_C9 1997 206 ref0 (by decide) (by decide) (by decide)
    (by decide)
  have emd : dayOfYearToMD 1997 (206 - 1) = (7, 25) := by decide
  rw [emd] at h
  have e1 : digits4 1997 ++ '-' :: digits3 206 = "1997-206".toList := by decide
  have e2 : digits4 1997 ++ digits3 206 = "1997206".toList := by decide
  have e3 : digits4 1997 ++ '-' :: (digits2 (7, 25).1 ++ '-' :: digits2 (7, 25).2) =
      "1997-07-25".toList := by decide
  rw [e1, e2, e3] at h
  exact h

/-! ## C2 (amended): the failure modes of `parse` -/

theorem addMicros_no_unparsable (c : Composed) (ms : Nat) (t : List Char) :
    addMicros c ms ≠ .error (.unparsable t) := by
  intro h
  simp only [addMicros] at h
  split at h
  · simp at h
  · split at h
    · simp at h
    · simp at h

theorem finish_no_unparsable (c : Composed) (f : Fields) (t : List Char) :
    compose.finish c f ≠ .error (.unparsable t) := by
  intro h
  simp only [compose.finish] at h
  split at h
  · split at h
    · simp at h
    · split at h
      · exact addMicros_no_unparsable _ _ _ h
      · simp at h
  · split at h
    · exact addMicros_no_unparsable _ _ _ h
    · simp at h

/-- Whatever the matched captures, the composition stage never produces
the `Unparsable` error: its failures are `ValueError`s from the strptime
grammars, the date range checks, or `not an ISO8601 tz`. -/
theorem compose_no_unparsable (f : Fields) (now : Ref) (t : List Char) :
    compose f now ≠ .error (.unparsable t) := by
  intro h
  simp only [compose] at h
  repeat' split at h
  all_goals first
    | simp at h
    | exact finish_no_unparsable _ _ _ h

/-- C2 (amended): `parse` raises `Unparsable`, carrying the input string
itself, exactly when no pattern of the dict matches the whole input; an
input some pattern does match either succeeds or fails with
`InvalidTimezone` or with an uncaught `ValueError` from the composition
stage — never with `Unparsable`. -/
theorem claim_C2 (s : List Char) (now : Ref) :
    (parse s now = .error (.unparsable s) ↔
      matchFirst patternOrder s = none) ∧
    (∀ t, parse s now = .error (.unparsable t) → t = s) := by
  constructor
  · constructor
    · intro h
      cases hm : matchFirst patternOrder s with
      | none => rfl
      | some f =>
        rw [parse, parseWith, hm] at h
        exact absurd h (compose_no_unparsable f now s)
    · intro h
      rw [parse, parseWith, h]
  · intro t h
    cases hm : matchFirst patternOrder s with
    | none =>
      rw [parse, parseWith, hm] at h
      simp only [Except.error.injEq, Err.unparsable.injEq] at h
      exact h.symm
    | some f =>
      rw [parse, parseWith, hm] at h
      exact absurd h (compose_no_unparsable f now t)

end Iso8601

